import Mathlib

/-!
Verification development for the `openclaw-xmtp` channel plugin.

This file shallowly embeds the decision logic of the repository:
credential resolution (`types.ts`), the inbound DM policy gate
(`channel.ts`), the session-open retry loop (`xmtp-bus.ts`) and the
ERC-8004 registration engine (`erc8004.ts`), and proves the spec's
claims about them.  External I/O (file system, pairing store, message
transport, chain RPC) is represented by explicit inputs; machine
integers are `Nat`; fallible calls are `Option`/`Except`.
-/

/-! ## JavaScript string primitives -/

/-- Whitespace per JS `String.prototype.trim` (modelled as Unicode whitespace). -/
def isWsChar (c : Char) : Bool := c.isWhitespace

/-- JS `trim` on a list of characters: drop whitespace from both ends. -/
def jsTrimList (l : List Char) : List Char :=
  (((l.dropWhile isWsChar).reverse.dropWhile isWsChar)).reverse

/-- JS `String.prototype.trim`. -/
def jsTrim (s : String) : String := ⟨jsTrimList s.data⟩

/-- JS `toLowerCase` on one character (ASCII range, which covers every input here). -/
def jsLowerChar (c : Char) : Char :=
  if 65 ≤ c.toNat ∧ c.toNat ≤ 90 then Char.ofNat (c.toNat + 32) else c

/-- JS `String.prototype.toLowerCase`. -/
def jsToLower (s : String) : String := ⟨s.data.map jsLowerChar⟩

/-- Decimal digit character. -/
def isDigitChar (c : Char) : Bool := 48 ≤ c.toNat ∧ c.toNat ≤ 57

/-- Lower-case hex digit (`[0-9a-f]`). -/
def isLowerHexChar (c : Char) : Bool :=
  isDigitChar c ∨ (97 ≤ c.toNat ∧ c.toNat ≤ 102)

/-- Hex digit of either case (`[0-9a-fA-F]`). -/
def isHexChar (c : Char) : Bool :=
  isLowerHexChar c ∨ (65 ≤ c.toNat ∧ c.toNat ≤ 70)

/-- Lower-case alphanumeric (`[a-z0-9]`), used by the chain-alias normalizer. -/
def isLowerAlnumChar (c : Char) : Bool :=
  isDigitChar c ∨ (97 ≤ c.toNat ∧ c.toNat ≤ 122)

/-- Test for `/^0x[0-9a-f]{40}$/` (already lower-cased input). -/
def isLowerEthAddressChars : List Char → Bool
  | c0 :: c1 :: rest => c0 == '0' && c1 == 'x' && rest.length == 40 && rest.all isLowerHexChar
  | _ => false

/-- Test for `0x` followed by exactly 40 hex digits of either case. -/
def isHexAddress40Chars : List Char → Bool
  | c0 :: c1 :: rest => c0 == '0' && c1 == 'x' && rest.length == 40 && rest.all isHexChar
  | _ => false

/-- String-level wrapper for `isLowerEthAddressChars`. -/
def isLowerEthAddress (s : String) : Bool := isLowerEthAddressChars s.data

/-- String-level wrapper for `isHexAddress40Chars`. -/
def isHexAddress40 (s : String) : Bool := isHexAddress40Chars s.data

/-! ### Basic lemmas about the string primitives -/

theorem jsTrimList_eq_nil_iff (l : List Char) :
    jsTrimList l = [] ↔ ∀ c ∈ l, isWsChar c := by
  unfold jsTrimList
  constructor
  · intro h c hc
    by_contra hw
    have h1 : ((l.dropWhile isWsChar).reverse.dropWhile isWsChar) = [] := by
      have := congrArg List.reverse h
      simpa using this
    rw [List.dropWhile_eq_nil_iff] at h1
    by_cases hmem : c ∈ l.dropWhile isWsChar
    · have := h1 c (by simpa using hmem)
      simp [hw] at this
    · have hsplit := List.takeWhile_append_dropWhile (p := isWsChar) (l := l)
      have : c ∈ l.takeWhile isWsChar ++ l.dropWhile isWsChar := by
        rw [hsplit]; exact hc
      rcases List.mem_append.mp this with h2 | h2
      · have := List.mem_takeWhile_imp h2
        simp [hw] at this
      · exact hmem h2
  · intro h
    have h1 : l.dropWhile isWsChar = [] := by
      rw [List.dropWhile_eq_nil_iff]
      intro c hc; exact of_decide_eq_true (by simpa using h c hc)
    simp [h1]

theorem jsTrim_ne_empty_of_mem {s : String} {c : Char}
    (hc : c ∈ s.data) (hw : isWsChar c = false) : jsTrim s ≠ "" := by
  intro h
  have hdata : jsTrimList s.data = [] := congrArg String.data h
  have := (jsTrimList_eq_nil_iff s.data).mp hdata c hc
  rw [hw] at this
  exact Bool.false_ne_true this

theorem char_ofNat_toNat {n : Nat} (h1 : 97 ≤ n) (h2 : n ≤ 122) :
    (Char.ofNat n).toNat = n := by
  have hv : n.isValidChar := Or.inl (by omega)
  rw [Char.ofNat, dif_pos hv, Char.ofNatAux, Char.toNat]
  simp [UInt32.toNat, BitVec.toNat_ofNatLt]

theorem jsLowerChar_hex {c : Char} (h : isHexChar c = true) :
    isLowerHexChar (jsLowerChar c) = true := by
  unfold isHexChar isLowerHexChar isDigitChar at h
  unfold jsLowerChar
  by_cases hu : 65 ≤ c.toNat ∧ c.toNat ≤ 90
  · rw [if_pos hu]
    unfold isLowerHexChar isDigitChar
    rw [char_ofNat_toNat (by omega) (by omega)]
    simp only [decide_eq_true_eq, Bool.or_eq_true] at h ⊢
    omega
  · rw [if_neg hu]
    unfold isLowerHexChar isDigitChar
    simp only [decide_eq_true_eq, Bool.or_eq_true] at h ⊢
    omega

theorem jsToLower_hexAddress {s : String} (h : isHexAddress40 s = true) :
    isLowerEthAddress (jsToLower s) = true := by
  unfold isHexAddress40 isLowerEthAddress jsToLower at *
  rcases hl : s.data with _ | ⟨c0, _ | ⟨c1, rest⟩⟩ <;> rw [hl] at h
  · simp [isHexAddress40Chars] at h
  · simp [isHexAddress40Chars] at h
  · unfold isHexAddress40Chars at h
    simp only [Bool.and_eq_true, beq_iff_eq, List.all_eq_true] at h
    obtain ⟨⟨⟨hc0, hc1⟩, hlen⟩, hall⟩ := h
    subst hc0; subst hc1
    show isLowerEthAddressChars (List.map jsLowerChar ('0' :: 'x' :: rest)) = true
    simp only [List.map_cons]
    unfold isLowerEthAddressChars
    simp only [Bool.and_eq_true, beq_iff_eq, List.all_eq_true, List.length_map]
    refine ⟨⟨⟨by decide, by decide⟩, by simpa using hlen⟩, ?_⟩
    intro c hc
    rcases List.mem_map.mp hc with ⟨a, ha, rfl⟩
    exact jsLowerChar_hex (hall a ha)

/-! ## Allow-entry normalization

From `xmtp-bus.ts` (`normalizeEthAddress`) and `channel.ts`
(`normalizeAllowEntry`, `normalizeAllowEntries`). -/

/-- From `xmtp-bus.ts`: trim and lower-case the input, then require
`/^0x[0-9a-f]{40}$/`; a non-matching input throws (modelled as `Except.error`). -/
def normalizeEthAddress (input : String) : Except String String :=
  let trimmed := jsToLower (jsTrim input)
  if isLowerEthAddress trimmed then Except.ok trimmed
  else Except.error "Invalid Ethereum address: must be 0x-prefixed 40 hex chars"

/-- From `channel.ts`: trim; keep `""` and `"*"` as-is; otherwise try
`normalizeEthAddress` and on failure fall back to the trimmed, lower-cased literal. -/
def normalizeAllowEntry (entry : String) : String :=
  let trimmed := jsTrim entry
  if trimmed = "" then ""
  else if trimmed = "*" then "*"
  else
    match normalizeEthAddress trimmed with
    | Except.ok a => a
    | Except.error _ => jsToLower trimmed

/-- From `channel.ts`: normalize every entry and drop the ones that end up empty. -/
def normalizeAllowEntries (entries : List String) : List String :=
  (entries.map normalizeAllowEntry).filter (fun e => e.length > 0)

/-- Allowlist verdict, per the plugin SDK contract. -/
inductive AllowMatchVia
  | noMatch
  | exact
  | wildcard
deriving Repr, DecidableEq

/-- Allowlist verdict record. -/
structure AllowMatch where
  allowed : Bool
  matchedVia : AllowMatchVia
deriving Repr, DecidableEq

/-- Modelled from the spec: `resolveAllowlistMatchSimple` lives in the external
`openclaw/plugin-sdk` package (not part of this repository's sources); per §4.2
the match succeeds if the sender id equals any entry, or if the wildcard entry
is present and the sender id is non-empty. -/
def resolveAllowlistMatchSimple (allowFrom : List String) (senderId : String) : AllowMatch :=
  if allowFrom.contains senderId then ⟨true, AllowMatchVia.exact⟩
  else if allowFrom.contains "*" ∧ senderId ≠ "" then ⟨true, AllowMatchVia.wildcard⟩
  else ⟨false, AllowMatchVia.noMatch⟩

/-! ## DM policy gate

From `channel.ts`, `xmtpPlugin.gateway.startAccount`'s `onMessage` handler,
direct-message branch.  External collaborators (pairing store read, pairing
upsert, reply delivery, control-command gate evaluation) are modelled as
explicit inputs in `DmWorld`; the handler's calls and their order are
recorded in an effects trace. -/

/-- DM policy values of `channels.xmtp.dmPolicy` (`"open"` is a Lean keyword,
hence `openPolicy`). -/
inductive DmPolicy
  | pairing
  | allowlist
  | openPolicy
  | disabled
deriving Repr, DecidableEq

/-- Observable calls made by the DM branch of the `onMessage` handler, in order. -/
inductive DmEffect
  | storeWarn
  | logDropDisabled
  | pairingUpsertAttempt (id : String)
  | logPairingRequest
  | sendPairingReply (conversationId : String)
  | recordOutbound
  | logPairingSent
  | logPairingError
  | logDropUnauthorized
  | commandGateEval
  | logDropCommand
  | recordSession
  | dispatch (commandAuthorized : Bool)
deriving Repr, DecidableEq

/-- Final disposition of one direct message. -/
inductive DmOutcome
  | droppedDisabled
  | pairingBootstrap
  | droppedUnauthorized
  | droppedCommandGate
  | dispatched
deriving Repr, DecidableEq

deriving instance DecidableEq for Except

/-- Results of the external calls the DM branch performs in one turn.
`storeRead` is `runtime.channel.pairing.readAllowFromStore` (may fail),
`upsert` is `upsertPairingRequest` returning `(code, created)` (may fail),
`sendPairingOk` tells whether `bus.sendText` of the pairing reply succeeds,
and the two `command*` fields are the external `resolveControlCommandGate`
evaluator's output (the claims hold for every evaluator output). -/
structure DmWorld where
  storeRead : Except String (List String)
  upsert : Except String (String × Bool)
  sendPairingOk : Bool
  commandShouldBlock : Bool
  commandAuthorized : Bool
deriving Repr, DecidableEq

/-- Effective allowlist used by the DM gate: normalized configured entries
followed by normalized persisted-store entries, where a failed store read
degrades to the empty list (`.catch(() => [])` in the source). -/
def dmEffectiveAllow (w : DmWorld) (allowFromCfg : Option (List String)) : List String :=
  normalizeAllowEntries (allowFromCfg.getD []) ++
    (match w.storeRead with
     | Except.ok entries => normalizeAllowEntries entries
     | Except.error _ => [])

/-- Result of the DM branch: ordered effects, disposition, and the effective
allowlist it matched against. -/
structure DmGateResult where
  effects : List DmEffect
  outcome : DmOutcome
  effectiveAllow : List String
deriving Repr, DecidableEq

/-- Policy core of the DM branch: everything after the effective-allowlist
computation (drop when disabled, pairing bootstrap or unauthorized drop,
control-command gate, dispatch).  Returns the branch effects and the
disposition. -/
def dmGateCore (w : DmWorld) (dmPolicy : DmPolicy) (sender conversationId : String)
    (effectiveAllowFrom : List String) : List DmEffect × DmOutcome :=
  let allowMatch := resolveAllowlistMatchSimple effectiveAllowFrom sender
  if dmPolicy = DmPolicy.disabled then
    ([DmEffect.logDropDisabled], DmOutcome.droppedDisabled)
  else if dmPolicy ≠ DmPolicy.openPolicy ∧ allowMatch.allowed = false then
    if dmPolicy = DmPolicy.pairing then
      let pairingEffects : List DmEffect :=
        match w.upsert with
        | Except.error _ => [DmEffect.pairingUpsertAttempt sender, DmEffect.logPairingError]
        | Except.ok (_, created) =>
          if created then
            DmEffect.pairingUpsertAttempt sender :: DmEffect.logPairingRequest ::
              DmEffect.sendPairingReply conversationId ::
              (if w.sendPairingOk then [DmEffect.recordOutbound, DmEffect.logPairingSent]
               else [DmEffect.logPairingError])
          else [DmEffect.pairingUpsertAttempt sender]
      (pairingEffects, DmOutcome.pairingBootstrap)
    else
      ([DmEffect.logDropUnauthorized], DmOutcome.droppedUnauthorized)
  else
    if w.commandShouldBlock then
      ([DmEffect.commandGateEval, DmEffect.logDropCommand], DmOutcome.droppedCommandGate)
    else
      ([DmEffect.commandGateEval, DmEffect.recordSession,
        DmEffect.dispatch w.commandAuthorized], DmOutcome.dispatched)

/-- Direct translation of the DM branch of the `onMessage` handler
(`channel.ts`): compute the effective allowlist (warning on store-read
failure), then run the policy core. -/
def handleInboundDm (w : DmWorld) (dmPolicyCfg : Option DmPolicy)
    (allowFromCfg : Option (List String)) (senderAddress : Option String)
    (senderInboxId conversationId : String) : DmGateResult :=
  let dmPolicy := dmPolicyCfg.getD DmPolicy.pairing
  let sender := senderAddress.getD senderInboxId
  let storeEffects : List DmEffect :=
    match w.storeRead with
    | Except.ok _ => []
    | Except.error _ => [DmEffect.storeWarn]
  let effectiveAllowFrom := dmEffectiveAllow w allowFromCfg
  let core := dmGateCore w dmPolicy sender conversationId effectiveAllowFrom
  ⟨storeEffects ++ core.1, core.2, effectiveAllowFrom⟩


/-! ### Structural lemmas about the DM gate -/

theorem handleInboundDm_eq (w : DmWorld) (p : Option DmPolicy) (af : Option (List String))
    (sa : Option String) (ib cv : String) :
    handleInboundDm w p af sa ib cv
      = ⟨(match w.storeRead with
          | Except.ok _ => []
          | Except.error _ => [DmEffect.storeWarn]) ++
           (dmGateCore w (p.getD DmPolicy.pairing) (sa.getD ib) cv
             (dmEffectiveAllow w af)).1,
         (dmGateCore w (p.getD DmPolicy.pairing) (sa.getD ib) cv
           (dmEffectiveAllow w af)).2,
         dmEffectiveAllow w af⟩ := rfl

theorem dmGateCore_disabled (w : DmWorld) (s cv : String) (ea : List String) :
    dmGateCore w DmPolicy.disabled s cv ea
      = ([DmEffect.logDropDisabled], DmOutcome.droppedDisabled) := by
  simp [dmGateCore]

theorem dmGateCore_open (w : DmWorld) (s cv : String) (ea : List String) :
    dmGateCore w DmPolicy.openPolicy s cv ea
      = if w.commandShouldBlock then
          ([DmEffect.commandGateEval, DmEffect.logDropCommand], DmOutcome.droppedCommandGate)
        else
          ([DmEffect.commandGateEval, DmEffect.recordSession,
            DmEffect.dispatch w.commandAuthorized], DmOutcome.dispatched) := by
  simp [dmGateCore]

theorem dmGateCore_allowlist_noMatch (w : DmWorld) (s cv : String) (ea : List String)
    (h : (resolveAllowlistMatchSimple ea s).allowed = false) :
    dmGateCore w DmPolicy.allowlist s cv ea
      = ([DmEffect.logDropUnauthorized], DmOutcome.droppedUnauthorized) := by
  simp [dmGateCore, h]

theorem dmGateCore_pairing_noMatch (w : DmWorld) (s cv : String) (ea : List String)
    (h : (resolveAllowlistMatchSimple ea s).allowed = false) :
    dmGateCore w DmPolicy.pairing s cv ea
      = ((match w.upsert with
          | Except.error _ => [DmEffect.pairingUpsertAttempt s, DmEffect.logPairingError]
          | Except.ok (_, created) =>
            if created then
              DmEffect.pairingUpsertAttempt s :: DmEffect.logPairingRequest ::
                DmEffect.sendPairingReply cv ::
                (if w.sendPairingOk then [DmEffect.recordOutbound, DmEffect.logPairingSent]
                 else [DmEffect.logPairingError])
            else [DmEffect.pairingUpsertAttempt s]),
         DmOutcome.pairingBootstrap) := by
  simp [dmGateCore, h]

theorem dmGateCore_storeRead_irrelevant (sr sr' : Except String (List String))
    (up : Except String (String × Bool)) (sp cb ca : Bool) (pol : DmPolicy)
    (s cv : String) (ea : List String) :
    dmGateCore ⟨sr, up, sp, cb, ca⟩ pol s cv ea = dmGateCore ⟨sr', up, sp, cb, ca⟩ pol s cv ea := by
  simp [dmGateCore]

/-! ## Claims about the DM policy gate (C1, C3, C4) -/

/-- C1: for every inbound direct message reaching the DM policy gate, `disabled`
drops the message before any dispatch to the responder for every sender; `open`
proceeds to command-gating regardless of the allowlist match and never issues a
pairing code; `allowlist` with a non-matching sender drops the message with no
pairing code issued. -/
theorem dm_policy_gate_c1 (w : DmWorld) (allowFromCfg : Option (List String))
    (senderAddress : Option String) (senderInboxId conversationId : String)
    (rd ro ra : DmGateResult)
    (hrd : rd = handleInboundDm w (some DmPolicy.disabled) allowFromCfg senderAddress
      senderInboxId conversationId)
    (hro : ro = handleInboundDm w (some DmPolicy.openPolicy) allowFromCfg senderAddress
      senderInboxId conversationId)
    (hra : ra = handleInboundDm w (some DmPolicy.allowlist) allowFromCfg senderAddress
      senderInboxId conversationId) :
    ((∀ b, DmEffect.dispatch b ∉ rd.effects) ∧ rd.outcome = DmOutcome.droppedDisabled)
    ∧ (DmEffect.commandGateEval ∈ ro.effects
       ∧ (∀ id, DmEffect.pairingUpsertAttempt id ∉ ro.effects)
       ∧ (∀ c, DmEffect.sendPairingReply c ∉ ro.effects))
    ∧ ((resolveAllowlistMatchSimple (dmEffectiveAllow w allowFromCfg)
          (senderAddress.getD senderInboxId)).allowed = false →
       ra.outcome = DmOutcome.droppedUnauthorized
       ∧ (∀ id, DmEffect.pairingUpsertAttempt id ∉ ra.effects)
       ∧ (∀ c, DmEffect.sendPairingReply c ∉ ra.effects)
       ∧ (∀ b, DmEffect.dispatch b ∉ ra.effects)) := by
  subst hrd hro hra
  obtain ⟨sr, up, sp, cb, ca⟩ := w
  refine ⟨⟨?_, ?_⟩, ?_, ?_⟩
  · intro b
    cases sr <;> simp [handleInboundDm_eq, dmGateCore_disabled]
  · cases sr <;> simp [handleInboundDm_eq, dmGateCore_disabled]
  · refine ⟨?_, ?_, ?_⟩
    · cases sr <;> cases cb <;> simp [handleInboundDm_eq, dmGateCore_open]
    · intro id
      cases sr <;> cases cb <;> simp [handleInboundDm_eq, dmGateCore_open]
    · intro c
      cases sr <;> cases cb <;> simp [handleInboundDm_eq, dmGateCore_open]
  · intro h
    refine ⟨?_, ?_, ?_, ?_⟩
    · cases sr <;> simp [handleInboundDm_eq, dmGateCore_allowlist_noMatch _ _ _ _ h]
    · intro id
      cases sr <;> simp [handleInboundDm_eq, dmGateCore_allowlist_noMatch _ _ _ _ h]
    · intro c
      cases sr <;> simp [handleInboundDm_eq, dmGateCore_allowlist_noMatch _ _ _ _ h]
    · intro b
      cases sr <;> simp [handleInboundDm_eq, dmGateCore_allowlist_noMatch _ _ _ _ h]

/-- Witness for `dm_policy_gate_c1` at a concrete world and message. -/
theorem dm_policy_gate_c1_witness :
    ((∀ b, DmEffect.dispatch b ∉ (handleInboundDm ⟨Except.ok [], Except.ok ("C", true), true,
        false, true⟩ (some DmPolicy.disabled) (some []) (some "0xabc") "ib" "cv").effects)
      ∧ (handleInboundDm ⟨Except.ok [], Except.ok ("C", true), true, false, true⟩
          (some DmPolicy.disabled) (some []) (some "0xabc") "ib" "cv").outcome
        = DmOutcome.droppedDisabled)
    ∧ (DmEffect.commandGateEval ∈ (handleInboundDm ⟨Except.ok [], Except.ok ("C", true), true,
        false, true⟩ (some DmPolicy.openPolicy) (some []) (some "0xabc") "ib" "cv").effects
       ∧ (∀ id, DmEffect.pairingUpsertAttempt id ∉ (handleInboundDm ⟨Except.ok [],
           Except.ok ("C", true), true, false, true⟩ (some DmPolicy.openPolicy) (some [])
           (some "0xabc") "ib" "cv").effects)
       ∧ (∀ c, DmEffect.sendPairingReply c ∉ (handleInboundDm ⟨Except.ok [],
           Except.ok ("C", true), true, false, true⟩ (some DmPolicy.openPolicy) (some [])
           (some "0xabc") "ib" "cv").effects))
    ∧ ((resolveAllowlistMatchSimple (dmEffectiveAllow ⟨Except.ok [], Except.ok ("C", true), true,
          false, true⟩ (some [])) ((some "0xabc").getD "ib")).allowed = false →
       (handleInboundDm ⟨Except.ok [], Except.ok ("C", true), true, false, true⟩
          (some DmPolicy.allowlist) (some []) (some "0xabc") "ib" "cv").outcome
         = DmOutcome.droppedUnauthorized
       ∧ (∀ id, DmEffect.pairingUpsertAttempt id ∉ (handleInboundDm ⟨Except.ok [],
           Except.ok ("C", true), true, false, true⟩ (some DmPolicy.allowlist) (some [])
           (some "0xabc") "ib" "cv").effects)
       ∧ (∀ c, DmEffect.sendPairingReply c ∉ (handleInboundDm ⟨Except.ok [],
           Except.ok ("C", true), true, false, true⟩ (some DmPolicy.allowlist) (some [])
           (some "0xabc") "ib" "cv").effects)
       ∧ (∀ b, DmEffect.dispatch b ∉ (handleInboundDm ⟨Except.ok [], Except.ok ("C", true),
           true, false, true⟩ (some DmPolicy.allowlist) (some []) (some "0xabc") "ib"
           "cv").effects)) :=
  dm_policy_gate_c1 ⟨Except.ok [], Except.ok ("C", true), true, false, true⟩ (some [])
    (some "0xabc") "ib" "cv" _ _ _ rfl rfl rfl

/-- C3 (counterexample to the claim as stated): with `dmPolicy = pairing`, a
non-matching sender, an upsert reporting a newly created request, and a
pairing-reply delivery that fails, the reply send is attempted but no outbound
activity is recorded — refuting "a one-time pairing-code reply is sent and
outbound activity recorded if and only if the upsert reports a newly created
request". -/
theorem dm_pairing_c3_counterexample :
    (handleInboundDm ⟨Except.ok [], Except.ok ("PAIRCODE", true), false, false, false⟩
        (some DmPolicy.pairing) (some []) (some "0xabc") "ib" "cv").effects
      = [DmEffect.pairingUpsertAttempt "0xabc", DmEffect.logPairingRequest,
         DmEffect.sendPairingReply "cv", DmEffect.logPairingError]
    ∧ DmEffect.recordOutbound ∉ (handleInboundDm ⟨Except.ok [], Except.ok ("PAIRCODE", true),
        false, false, false⟩ (some DmPolicy.pairing) (some []) (some "0xabc") "ib"
        "cv").effects := by
  constructor
  · rfl
  · decide

/-- C3 (amended): under `dmPolicy = pairing` with a non-matching sender, a
pairing request keyed by the sender identifier is always created or looked up;
a one-time pairing-code reply send is attempted iff the upsert reports a newly
created request; outbound activity is recorded iff additionally the reply
delivery succeeds; and the message is never dispatched to the responder in
that turn. -/
theorem dm_pairing_bootstrap_c3 (w : DmWorld) (allowFromCfg : Option (List String))
    (senderAddress : Option String) (senderInboxId conversationId : String)
    (r : DmGateResult)
    (hr : r = handleInboundDm w (some DmPolicy.pairing) allowFromCfg senderAddress
      senderInboxId conversationId)
    (h : (resolveAllowlistMatchSimple (dmEffectiveAllow w allowFromCfg)
      (senderAddress.getD senderInboxId)).allowed = false) :
    DmEffect.pairingUpsertAttempt (senderAddress.getD senderInboxId) ∈ r.effects
    ∧ (DmEffect.sendPairingReply conversationId ∈ r.effects
        ↔ ∃ code, w.upsert = Except.ok (code, true))
    ∧ (DmEffect.recordOutbound ∈ r.effects
        ↔ (∃ code, w.upsert = Except.ok (code, true)) ∧ w.sendPairingOk = true)
    ∧ (∀ b, DmEffect.dispatch b ∉ r.effects)
    ∧ r.outcome = DmOutcome.pairingBootstrap := by
  subst hr
  obtain ⟨sr, up, sp, cb, ca⟩ := w
  refine ⟨?_, ?_, ?_, ?_, ?_⟩
  · cases sr <;> rcases up with _ | ⟨code, created⟩ <;> try cases created
    all_goals cases sp <;> simp_all [handleInboundDm_eq, dmGateCore_pairing_noMatch]
  · cases sr <;> rcases up with _ | ⟨code, created⟩ <;> try cases created
    all_goals cases sp <;> simp_all [handleInboundDm_eq, dmGateCore_pairing_noMatch]
  · cases sr <;> rcases up with _ | ⟨code, created⟩ <;> try cases created
    all_goals cases sp <;> simp_all [handleInboundDm_eq, dmGateCore_pairing_noMatch]
  · intro b
    cases sr <;> rcases up with _ | ⟨code, created⟩ <;> try cases created
    all_goals cases sp <;> simp_all [handleInboundDm_eq, dmGateCore_pairing_noMatch]
  · cases sr <;> simp_all [handleInboundDm_eq, dmGateCore_pairing_noMatch]

/-- Witness for `dm_pairing_bootstrap_c3` at a concrete world and message. -/
theorem dm_pairing_bootstrap_c3_witness :
    DmEffect.pairingUpsertAttempt ((some "0xabc").getD "ib")
      ∈ (handleInboundDm ⟨Except.ok [], Except.ok ("PAIRCODE", true), true, false, true⟩
          (some DmPolicy.pairing) (some []) (some "0xabc") "ib" "cv").effects
    ∧ (DmEffect.sendPairingReply "cv" ∈ (handleInboundDm ⟨Except.ok [],
          Except.ok ("PAIRCODE", true), true, false, true⟩ (some DmPolicy.pairing) (some [])
          (some "0xabc") "ib" "cv").effects
        ↔ ∃ code, (DmWorld.mk (Except.ok []) (Except.ok ("PAIRCODE", true)) true false
            true).upsert = Except.ok (code, true))
    ∧ (DmEffect.recordOutbound ∈ (handleInboundDm ⟨Except.ok [],
          Except.ok ("PAIRCODE", true), true, false, true⟩ (some DmPolicy.pairing) (some [])
          (some "0xabc") "ib" "cv").effects
        ↔ (∃ code, (DmWorld.mk (Except.ok []) (Except.ok ("PAIRCODE", true)) true false
            true).upsert = Except.ok (code, true))
          ∧ (DmWorld.mk (Except.ok []) (Except.ok ("PAIRCODE", true)) true false
            true).sendPairingOk = true)
    ∧ (∀ b, DmEffect.dispatch b ∉ (handleInboundDm ⟨Except.ok [],
        Except.ok ("PAIRCODE", true), true, false, true⟩ (some DmPolicy.pairing) (some [])
        (some "0xabc") "ib" "cv").effects)
    ∧ (handleInboundDm ⟨Except.ok [], Except.ok ("PAIRCODE", true), true, false, true⟩
        (some DmPolicy.pairing) (some []) (some "0xabc") "ib" "cv").outcome
      = DmOutcome.pairingBootstrap :=
  dm_pairing_bootstrap_c3 ⟨Except.ok [], Except.ok ("PAIRCODE", true), true, false, true⟩
    (some []) (some "0xabc") "ib" "cv" _ rfl (by decide)

/-- C4: the effective allowlist the DM gate matches against is the union of the
normalized configured entries and the normalized persisted pairing-store
entries; a failed store read degrades to an empty persisted set plus a logged
warning and the gate otherwise behaves exactly as with an empty store, never
propagating the failure as a thrown error out of the handler. -/
theorem dm_effective_allow_c4 (w : DmWorld) (dmPolicyCfg : Option DmPolicy)
    (allowFromCfg : Option (List String)) (senderAddress : Option String)
    (senderInboxId conversationId : String) :
    (∀ es, w.storeRead = Except.ok es →
      (handleInboundDm w dmPolicyCfg allowFromCfg senderAddress senderInboxId
        conversationId).effectiveAllow
        = normalizeAllowEntries (allowFromCfg.getD []) ++ normalizeAllowEntries es
      ∧ DmEffect.storeWarn ∉ (handleInboundDm w dmPolicyCfg allowFromCfg senderAddress
          senderInboxId conversationId).effects)
    ∧ (∀ e, w.storeRead = Except.error e →
      (handleInboundDm w dmPolicyCfg allowFromCfg senderAddress senderInboxId
        conversationId).effectiveAllow
        = normalizeAllowEntries (allowFromCfg.getD [])
      ∧ handleInboundDm w dmPolicyCfg allowFromCfg senderAddress senderInboxId conversationId
        = ⟨DmEffect.storeWarn :: (handleInboundDm { w with storeRead := Except.ok [] }
              dmPolicyCfg allowFromCfg senderAddress senderInboxId conversationId).effects,
           (handleInboundDm { w with storeRead := Except.ok [] } dmPolicyCfg allowFromCfg
              senderAddress senderInboxId conversationId).outcome,
           (handleInboundDm { w with storeRead := Except.ok [] } dmPolicyCfg allowFromCfg
              senderAddress senderInboxId conversationId).effectiveAllow⟩) := by
  obtain ⟨sr, up, sp, cb, ca⟩ := w
  constructor
  · intro es hes
    cases sr with
    | error e0 => exact absurd hes (by simp)
    | ok es0 =>
      have hes0 : es0 = es := by simpa using hes
      subst hes0
      constructor
      · simp [handleInboundDm_eq, dmEffectiveAllow]
      · rw [handleInboundDm_eq]
        simp only [List.nil_append]
        have hcore : ∀ pol s cv ea, DmEffect.storeWarn ∉
            (dmGateCore ⟨Except.ok es0, up, sp, cb, ca⟩ pol s cv ea).1 := by
          intro pol s cv ea
          rcases up with _ | ⟨code, created⟩ <;> try cases created
          all_goals cases sp <;> cases cb <;>
            simp [dmGateCore] <;> split_ifs <;> simp
        exact hcore _ _ _ _
  · intro e he
    cases sr with
    | ok es0 => exact absurd he (by simp)
    | error e0 =>
      have hall : dmEffectiveAllow ⟨Except.error e0, up, sp, cb, ca⟩ allowFromCfg
          = normalizeAllowEntries (allowFromCfg.getD []) := by
        simp [dmEffectiveAllow]
      have hallok : dmEffectiveAllow ⟨Except.ok [], up, sp, cb, ca⟩ allowFromCfg
          = normalizeAllowEntries (allowFromCfg.getD []) := by
        simp [dmEffectiveAllow, normalizeAllowEntries]
      refine ⟨hall, ?_⟩
      rw [handleInboundDm_eq, handleInboundDm_eq]
      simp only [List.nil_append, hall, hallok]
      rw [dmGateCore_storeRead_irrelevant (Except.error e0) (Except.ok []) up sp cb ca]
      rfl

/-- Witness for `dm_effective_allow_c4` at a concrete world and message. -/
theorem dm_effective_allow_c4_witness :
    (handleInboundDm ⟨Except.error "disk gone", Except.ok ("C", false), true, false, true⟩
      (some DmPolicy.allowlist) (some ["*"]) (some "0xabc") "ib" "cv").effectiveAllow
      = normalizeAllowEntries ((some ["*"]).getD [])
    ∧ handleInboundDm ⟨Except.error "disk gone", Except.ok ("C", false), true, false, true⟩
        (some DmPolicy.allowlist) (some ["*"]) (some "0xabc") "ib" "cv"
      = ⟨DmEffect.storeWarn :: (handleInboundDm ⟨Except.ok [], Except.ok ("C", false), true,
            false, true⟩ (some DmPolicy.allowlist) (some ["*"]) (some "0xabc") "ib"
            "cv").effects,
         (handleInboundDm ⟨Except.ok [], Except.ok ("C", false), true, false, true⟩
            (some DmPolicy.allowlist) (some ["*"]) (some "0xabc") "ib" "cv").outcome,
         (handleInboundDm ⟨Except.ok [], Except.ok ("C", false), true, false, true⟩
            (some DmPolicy.allowlist) (some ["*"]) (some "0xabc") "ib" "cv").effectiveAllow⟩ :=
  (dm_effective_allow_c4 ⟨Except.error "disk gone", Except.ok ("C", false), true, false, true⟩
    (some DmPolicy.allowlist) (some ["*"]) (some "0xabc") "ib" "cv").2 "disk gone" rfl

/-! ## Credential resolution (`types.ts`)

`process.env` is a `ProcEnv` record, `readFileSync` is a partial map from
paths to contents (`Option.none` models a read that throws), and viem's
`privateKeyToAccount` is an abstract parameter `priv : String → Option String`
(`Option.none` models a throw; a returned address is `0x` + 40 hex digits in
viem's checksum casing). -/

/-- Network environment tier. -/
inductive XmtpEnv
  | local
  | dev
  | production
deriving Repr, DecidableEq

/-- Group policy values of `channels.xmtp.groupPolicy`. -/
inductive GroupPolicy
  | openPolicy
  | disabled
  | allowlist
deriving Repr, DecidableEq

/-- Per-account configuration fields (`XmtpAccountConfig` in `types.ts`);
absent optional fields are `Option.none`. -/
structure XmtpAccountConfig where
  enabled : Option Bool
  name : Option String
  walletKey : Option String
  walletKeyFile : Option String
  dbEncryptionKey : Option String
  dbEncryptionKeyFile : Option String
  env : Option XmtpEnv
  dbPath : Option String
  dmPolicy : Option DmPolicy
  allowFrom : Option (List String)
  groupPolicy : Option GroupPolicy
  groupAllowFrom : Option (List String)
deriving Repr, DecidableEq

/-- The all-absent account configuration (`{}` in JS). -/
def emptyAccountConfig : XmtpAccountConfig :=
  ⟨Option.none, Option.none, Option.none, Option.none, Option.none, Option.none,
   Option.none, Option.none, Option.none, Option.none, Option.none, Option.none⟩

/-- Channel-level raw configuration: the account fields plus the optional
named-accounts record (`XmtpChannelRawConfig`).  A JS object's keys are
ordered, so the record is an association list. -/
structure XmtpChannelRawConfig extends XmtpAccountConfig where
  accounts : Option (List (String × XmtpAccountConfig))
deriving Repr, DecidableEq

/-- Host configuration slice: `cfg.channels?.xmtp`. -/
structure OpenClawConfig where
  xmtp : Option XmtpChannelRawConfig
deriving Repr, DecidableEq

/-- The two environment variables consulted by the resolver. -/
structure ProcEnv where
  XMTP_WALLET_KEY : Option String
  XMTP_DB_ENCRYPTION_KEY : Option String
deriving Repr, DecidableEq

/-- File system as seen by `readFileSync`: `Option.none` is a thrown read error. -/
def FileSystem : Type := String → Option String

/-- Provenance of a resolved secret (`XmtpSecretSource`). -/
inductive XmtpSecretSource
  | env
  | secretFile
  | config
  | none
deriving Repr, DecidableEq

/-- Result record of `resolveXmtpAccount` (`ResolvedXmtpAccount`). -/
structure ResolvedXmtpAccount where
  accountId : String
  name : Option String
  enabled : Bool
  configured : Bool
  walletKey : String
  walletKeySource : XmtpSecretSource
  dbEncryptionKey : String
  dbEncryptionKeySource : XmtpSecretSource
  address : String
  env : XmtpEnv
  config : XmtpAccountConfig
deriving Repr, DecidableEq

/-- `DEFAULT_ACCOUNT_ID` in `types.ts`. -/
def DEFAULT_ACCOUNT_ID : String := "default"

/-- JS truthiness of `o?.f?.trim()` for an optional string field. -/
def optNonBlank (o : Option String) : Bool :=
  match o with
  | some s => !(jsTrim s).isEmpty
  | Option.none => false

/-- Single-account fallback of `listXmtpAccountIds`: top-level config secret
fields plus the environment variables (`hasConfig || hasEnv` in the source).
When `channels.xmtp` is absent every optional chain is `undefined`, which the
caller models by passing `Option.none` fields. -/
def listXmtpAccountIdsFallback (xmtpCfg : Option XmtpChannelRawConfig) (penv : ProcEnv) :
    List String :=
  let hasConfig := optNonBlank (xmtpCfg.bind (·.walletKey))
    ∨ optNonBlank (xmtpCfg.bind (·.walletKeyFile))
    ∨ optNonBlank (xmtpCfg.bind (·.dbEncryptionKey))
    ∨ optNonBlank (xmtpCfg.bind (·.dbEncryptionKeyFile))
  let hasEnv := optNonBlank penv.XMTP_WALLET_KEY ∨ optNonBlank penv.XMTP_DB_ENCRYPTION_KEY
  if hasConfig ∨ hasEnv then [DEFAULT_ACCOUNT_ID] else []

/-- From `types.ts`: `listXmtpAccountIds`.  A present non-empty `accounts`
record wins (environment variables create no implicit default then); otherwise
an implicit `default` account exists iff any of the four top-level secret
fields or the two environment variables is non-blank. -/
def listXmtpAccountIds (cfg : OpenClawConfig) (penv : ProcEnv) : List String :=
  match (cfg.xmtp.bind (·.accounts)) with
  | some accts =>
    if accts.length > 0 then accts.map Prod.fst
    else listXmtpAccountIdsFallback cfg.xmtp penv
  | Option.none => listXmtpAccountIdsFallback cfg.xmtp penv

/-- From `types.ts`: `resolveDefaultXmtpAccountId`. -/
def resolveDefaultXmtpAccountId (cfg : OpenClawConfig) (penv : ProcEnv) : String :=
  let ids := listXmtpAccountIds cfg penv
  if ids.contains DEFAULT_ACCOUNT_ID then DEFAULT_ACCOUNT_ID
  else ids.headD DEFAULT_ACCOUNT_ID

/-- From `types.ts`: `resolveWalletKey`.  A set (non-blank) file reference is
read first: a read error resolves to `("", none)`; non-blank content resolves
to `(content.trim(), secretFile)`; blank content falls through.  Then the
inline value, then (default account only) the environment variable. -/
def resolveWalletKey (accountId : String) (cfg : XmtpAccountConfig) (penv : ProcEnv)
    (fs : FileSystem) : String × XmtpSecretSource :=
  let fileStep : Option (String × XmtpSecretSource) :=
    match cfg.walletKeyFile with
    | Option.none => Option.none
    | some f =>
      let walletKeyFile := jsTrim f
      if walletKeyFile = "" then Option.none
      else
        match fs walletKeyFile with
        | Option.none => some ("", XmtpSecretSource.none)
        | some content =>
          let secret := jsTrim content
          if secret = "" then Option.none else some (secret, XmtpSecretSource.secretFile)
  match fileStep with
  | some r => r
  | Option.none =>
    let configKey := jsTrim (cfg.walletKey.getD "")
    if configKey ≠ "" then (configKey, XmtpSecretSource.config)
    else if accountId = DEFAULT_ACCOUNT_ID then
      let envKey := jsTrim (penv.XMTP_WALLET_KEY.getD "")
      if envKey ≠ "" then (envKey, XmtpSecretSource.env)
      else ("", XmtpSecretSource.none)
    else ("", XmtpSecretSource.none)

/-- From `types.ts`: `resolveDbEncryptionKey`, same shape as `resolveWalletKey`
over the db-encryption fields and `XMTP_DB_ENCRYPTION_KEY`. -/
def resolveDbEncryptionKey (accountId : String) (cfg : XmtpAccountConfig) (penv : ProcEnv)
    (fs : FileSystem) : String × XmtpSecretSource :=
  let fileStep : Option (String × XmtpSecretSource) :=
    match cfg.dbEncryptionKeyFile with
    | Option.none => Option.none
    | some f =>
      let secretFile := jsTrim f
      if secretFile = "" then Option.none
      else
        match fs secretFile with
        | Option.none => some ("", XmtpSecretSource.none)
        | some content =>
          let secret := jsTrim content
          if secret = "" then Option.none else some (secret, XmtpSecretSource.secretFile)
  match fileStep with
  | some r => r
  | Option.none =>
    let configKey := jsTrim (cfg.dbEncryptionKey.getD "")
    if configKey ≠ "" then (configKey, XmtpSecretSource.config)
    else if accountId = DEFAULT_ACCOUNT_ID then
      let envKey := jsTrim (penv.XMTP_DB_ENCRYPTION_KEY.getD "")
      if envKey ≠ "" then (envKey, XmtpSecretSource.env)
      else ("", XmtpSecretSource.none)
    else ("", XmtpSecretSource.none)

/-- From `types.ts`: `deriveAddressFromKey` over the abstract
`privateKeyToAccount`; a throw yields `""`, success lower-cases the address. -/
def deriveAddressFromKey (priv : String → Option String) (walletKey : String) : String :=
  match priv walletKey with
  | some address => jsToLower address
  | Option.none => ""

/-- JS spread merge `{...topLevelFields, ...accountOverrides}`: a field present
in the override wins, field by field. -/
def mergeAccountConfig (top ov : XmtpAccountConfig) : XmtpAccountConfig :=
  ⟨ov.enabled.or top.enabled, ov.name.or top.name, ov.walletKey.or top.walletKey,
   ov.walletKeyFile.or top.walletKeyFile, ov.dbEncryptionKey.or top.dbEncryptionKey,
   ov.dbEncryptionKeyFile.or top.dbEncryptionKeyFile, ov.env.or top.env,
   ov.dbPath.or top.dbPath, ov.dmPolicy.or top.dmPolicy, ov.allowFrom.or top.allowFrom,
   ov.groupPolicy.or top.groupPolicy, ov.groupAllowFrom.or top.groupAllowFrom⟩

/-- From `types.ts`: `resolveXmtpAccount`.  Merges the top-level fields with
the per-account overrides, resolves both secrets, marks the account configured
iff both secrets are non-empty, and derives the address only when configured. -/
def resolveXmtpAccount (priv : String → Option String) (cfg : OpenClawConfig)
    (penv : ProcEnv) (fs : FileSystem) (accountIdOpt : Option String) :
    ResolvedXmtpAccount :=
  let accountId := accountIdOpt.getD DEFAULT_ACCOUNT_ID
  let xmtpCfg := cfg.xmtp
  let topLevelFields := (xmtpCfg.map (·.toXmtpAccountConfig)).getD emptyAccountConfig
  let accountOverrides :=
    ((xmtpCfg.bind (·.accounts)).bind (fun accts => accts.lookup accountId)).getD
      emptyAccountConfig
  let merged := mergeAccountConfig topLevelFields accountOverrides
  let baseEnabled := merged.enabled ≠ some false
  let walletKeyResolution := resolveWalletKey accountId merged penv fs
  let dbEncryptionKeyResolution := resolveDbEncryptionKey accountId merged penv fs
  let configured := walletKeyResolution.1 ≠ "" ∧ dbEncryptionKeyResolution.1 ≠ ""
  let address := if configured then deriveAddressFromKey priv walletKeyResolution.1 else ""
  { accountId := accountId
    name := if jsTrim (merged.name.getD "") = "" then Option.none
            else some (jsTrim (merged.name.getD ""))
    enabled := baseEnabled
    configured := configured
    walletKey := walletKeyResolution.1
    walletKeySource := walletKeyResolution.2
    dbEncryptionKey := dbEncryptionKeyResolution.1
    dbEncryptionKeySource := dbEncryptionKeyResolution.2
    address := address
    env := merged.env.getD XmtpEnv.production
    config := merged }

/-! ## Claims about account listing and secret resolution (C5, C6, C2) -/

/-- Claim-side reading of "any secret material (inline value, file reference,
or environment variable) is present". -/
def SecretMaterialPresent (cfg : OpenClawConfig) (penv : ProcEnv) : Prop :=
  (∃ s, cfg.xmtp.bind (·.walletKey) = some s ∧ jsTrim s ≠ "")
  ∨ (∃ s, cfg.xmtp.bind (·.walletKeyFile) = some s ∧ jsTrim s ≠ "")
  ∨ (∃ s, cfg.xmtp.bind (·.dbEncryptionKey) = some s ∧ jsTrim s ≠ "")
  ∨ (∃ s, cfg.xmtp.bind (·.dbEncryptionKeyFile) = some s ∧ jsTrim s ≠ "")
  ∨ (∃ s, penv.XMTP_WALLET_KEY = some s ∧ jsTrim s ≠ "")
  ∨ (∃ s, penv.XMTP_DB_ENCRYPTION_KEY = some s ∧ jsTrim s ≠ "")

theorem optNonBlank_iff (o : Option String) :
    optNonBlank o = true ↔ ∃ s, o = some s ∧ jsTrim s ≠ "" := by
  cases o with
  | none => simp [optNonBlank]
  | some s =>
    unfold optNonBlank
    rw [Bool.not_eq_true']
    constructor
    · intro h
      refine ⟨s, rfl, fun he => ?_⟩
      rw [he] at h
      exact absurd h (by decide)
    · rintro ⟨t, ht1, ht2⟩
      have hts : t = s := by
        have := ht1.symm
        injection this
      subst hts
      cases he : (jsTrim t).isEmpty with
      | false => rfl
      | true => exact absurd ((String.isEmpty_iff (jsTrim t)).mp he) ht2

/-- C5: with a present non-empty named-accounts map, `listXmtpAccountIds`
returns exactly its keys regardless of the environment variables; otherwise it
returns `["default"]` iff any secret material (inline, file reference, or
environment variable) is present, and `[]` if none is. -/
theorem listXmtpAccountIds_c5 (cfg : OpenClawConfig) (penv : ProcEnv) :
    (∀ x accts, cfg.xmtp = some x → x.accounts = some accts → accts ≠ [] →
      listXmtpAccountIds cfg penv = accts.map Prod.fst)
    ∧ ((cfg.xmtp.bind (·.accounts)).getD [] = [] →
        (listXmtpAccountIds cfg penv = [DEFAULT_ACCOUNT_ID]
          ↔ SecretMaterialPresent cfg penv)
        ∧ (¬ SecretMaterialPresent cfg penv → listXmtpAccountIds cfg penv = [])) := by
  constructor
  · intro x accts hx haccts hne
    have hb : cfg.xmtp.bind (·.accounts) = some accts := by
      rw [hx]
      simp [haccts]
    unfold listXmtpAccountIds
    rw [hb]
    have hlen : accts.length > 0 := List.length_pos.mpr hne
    simp [hlen]
  · intro hempty
    have hfall : listXmtpAccountIds cfg penv = listXmtpAccountIdsFallback cfg.xmtp penv := by
      unfold listXmtpAccountIds
      rcases hacc : cfg.xmtp.bind (·.accounts) with _ | accts
      · rfl
      · rw [hacc] at hempty
        simp only [Option.getD_some] at hempty
        subst hempty
        simp
    rw [hfall]
    have hiff : (optNonBlank (cfg.xmtp.bind (·.walletKey))
        ∨ optNonBlank (cfg.xmtp.bind (·.walletKeyFile))
        ∨ optNonBlank (cfg.xmtp.bind (·.dbEncryptionKey))
        ∨ optNonBlank (cfg.xmtp.bind (·.dbEncryptionKeyFile))
        ∨ optNonBlank penv.XMTP_WALLET_KEY ∨ optNonBlank penv.XMTP_DB_ENCRYPTION_KEY)
        ↔ SecretMaterialPresent cfg penv := by
      unfold SecretMaterialPresent
      simp only [optNonBlank_iff]
    constructor
    · unfold listXmtpAccountIdsFallback
      constructor
      · intro h
        by_contra hnp
        rw [if_neg] at h
        · exact List.cons_ne_nil _ _ h.symm
        · intro hcond
          exact hnp (hiff.mp (by tauto))
      · intro hp
        rw [if_pos]
        rcases hiff.mpr hp with h | h | h | h | h | h <;> tauto
    · intro hnp
      unfold listXmtpAccountIdsFallback
      rw [if_neg]
      intro hcond
      exact hnp (hiff.mp (by tauto))

/-- Witness for `listXmtpAccountIds_c5` at a concrete configuration. -/
theorem listXmtpAccountIds_c5_witness :
    listXmtpAccountIds
      ⟨some ⟨emptyAccountConfig, some [("alice", emptyAccountConfig),
        ("bob", emptyAccountConfig)]⟩⟩ ⟨some "0xenvkey", Option.none⟩
      = [("alice", emptyAccountConfig), ("bob", emptyAccountConfig)].map Prod.fst :=
  (listXmtpAccountIds_c5
    ⟨some ⟨emptyAccountConfig, some [("alice", emptyAccountConfig),
      ("bob", emptyAccountConfig)]⟩⟩ ⟨some "0xenvkey", Option.none⟩).1
    ⟨emptyAccountConfig, some [("alice", emptyAccountConfig), ("bob", emptyAccountConfig)]⟩
    [("alice", emptyAccountConfig), ("bob", emptyAccountConfig)] rfl rfl (by decide)

/-- The wallet-key file step falls through (no file reference set, a blank
reference, or a readable file whose content trims to blank). -/
def walletFileFallthrough (cfg : XmtpAccountConfig) (fs : FileSystem) : Prop :=
  cfg.walletKeyFile = Option.none
  ∨ ∃ f, cfg.walletKeyFile = some f
      ∧ (jsTrim f = "" ∨ ∃ c, fs (jsTrim f) = some c ∧ jsTrim c = "")

/-- The db-encryption-key file step falls through. -/
def dbFileFallthrough (cfg : XmtpAccountConfig) (fs : FileSystem) : Prop :=
  cfg.dbEncryptionKeyFile = Option.none
  ∨ ∃ f, cfg.dbEncryptionKeyFile = some f
      ∧ (jsTrim f = "" ∨ ∃ c, fs (jsTrim f) = some c ∧ jsTrim c = "")

theorem resolveWalletKey_fallthrough (aid : String) (cfg : XmtpAccountConfig)
    (penv : ProcEnv) (fs : FileSystem) (hf : walletFileFallthrough cfg fs) :
    resolveWalletKey aid cfg penv fs
      = (let configKey := jsTrim (cfg.walletKey.getD "")
         if configKey ≠ "" then (configKey, XmtpSecretSource.config)
         else if aid = DEFAULT_ACCOUNT_ID then
           let envKey := jsTrim (penv.XMTP_WALLET_KEY.getD "")
           if envKey ≠ "" then (envKey, XmtpSecretSource.env)
           else ("", XmtpSecretSource.none)
         else ("", XmtpSecretSource.none)) := by
  unfold resolveWalletKey
  rcases hf with hnone | ⟨f, hsome, hblank | ⟨c, hc, hcblank⟩⟩
  · rw [hnone]
  · rw [hsome]
    simp [hblank]
  · rw [hsome]
    by_cases hfb : jsTrim f = ""
    · simp [hfb]
    · simp [hfb, hc, hcblank]

theorem resolveDbEncryptionKey_fallthrough (aid : String) (cfg : XmtpAccountConfig)
    (penv : ProcEnv) (fs : FileSystem) (hf : dbFileFallthrough cfg fs) :
    resolveDbEncryptionKey aid cfg penv fs
      = (let configKey := jsTrim (cfg.dbEncryptionKey.getD "")
         if configKey ≠ "" then (configKey, XmtpSecretSource.config)
         else if aid = DEFAULT_ACCOUNT_ID then
           let envKey := jsTrim (penv.XMTP_DB_ENCRYPTION_KEY.getD "")
           if envKey ≠ "" then (envKey, XmtpSecretSource.env)
           else ("", XmtpSecretSource.none)
         else ("", XmtpSecretSource.none)) := by
  unfold resolveDbEncryptionKey
  rcases hf with hnone | ⟨f, hsome, hblank | ⟨c, hc, hcblank⟩⟩
  · rw [hnone]
  · rw [hsome]
    simp [hblank]
  · rw [hsome]
    by_cases hfb : jsTrim f = ""
    · simp [hfb]
    · simp [hfb, hc, hcblank]

/-- C6 (counterexample to the claim as stated): a set, readable wallet-key file
reference whose content is blank does not win over the inline value — the
resolver falls through and returns the inline value with provenance `config`,
so "a set file reference wins over an inline value" fails. -/
theorem secret_precedence_c6_counterexample :
    ({ emptyAccountConfig with walletKeyFile := some "wf", walletKey := some "0xinline" }
        : XmtpAccountConfig).walletKeyFile = some "wf"
    ∧ (fun p => if p = "wf" then some "   " else Option.none : FileSystem) "wf" = some "   "
    ∧ resolveWalletKey DEFAULT_ACCOUNT_ID
        { emptyAccountConfig with walletKeyFile := some "wf", walletKey := some "0xinline" }
        ⟨Option.none, Option.none⟩
        (fun p => if p = "wf" then some "   " else Option.none)
      = ("0xinline", XmtpSecretSource.config)
    ∧ XmtpSecretSource.config ≠ XmtpSecretSource.secretFile
    ∧ XmtpSecretSource.config ≠ XmtpSecretSource.none := by
  refine ⟨rfl, rfl, ?_, by decide, by decide⟩
  rfl

/-- C6 (amended): for each secret independently, a set file reference wins
when its read succeeds with non-blank content; a failed read resolves the
secret to `("", none)` without throwing (and without consulting the inline or
environment values); a readable-but-blank file (or no file reference) falls
through to the inline value, then — for the default account only — to the
environment variable, else to `("", none)`; for named accounts the environment
is never consulted. -/
theorem secret_precedence_c6 (aid : String) (cfg : XmtpAccountConfig)
    (penv penv' : ProcEnv) (fs : FileSystem) :
    (∀ f, cfg.walletKeyFile = some f → jsTrim f ≠ "" → fs (jsTrim f) = Option.none →
      resolveWalletKey aid cfg penv fs = ("", XmtpSecretSource.none))
    ∧ (∀ f c, cfg.walletKeyFile = some f → jsTrim f ≠ "" → fs (jsTrim f) = some c →
      jsTrim c ≠ "" →
      resolveWalletKey aid cfg penv fs = (jsTrim c, XmtpSecretSource.secretFile))
    ∧ (walletFileFallthrough cfg fs → jsTrim (cfg.walletKey.getD "") ≠ "" →
      resolveWalletKey aid cfg penv fs
        = (jsTrim (cfg.walletKey.getD ""), XmtpSecretSource.config))
    ∧ (walletFileFallthrough cfg fs → jsTrim (cfg.walletKey.getD "") = "" →
      aid = DEFAULT_ACCOUNT_ID → jsTrim (penv.XMTP_WALLET_KEY.getD "") ≠ "" →
      resolveWalletKey aid cfg penv fs
        = (jsTrim (penv.XMTP_WALLET_KEY.getD ""), XmtpSecretSource.env))
    ∧ (walletFileFallthrough cfg fs → jsTrim (cfg.walletKey.getD "") = "" →
      aid ≠ DEFAULT_ACCOUNT_ID →
      resolveWalletKey aid cfg penv fs = ("", XmtpSecretSource.none))
    ∧ (aid ≠ DEFAULT_ACCOUNT_ID →
      resolveWalletKey aid cfg penv fs = resolveWalletKey aid cfg penv' fs)
    ∧ (∀ f, cfg.dbEncryptionKeyFile = some f → jsTrim f ≠ "" → fs (jsTrim f) = Option.none →
      resolveDbEncryptionKey aid cfg penv fs = ("", XmtpSecretSource.none))
    ∧ (∀ f c, cfg.dbEncryptionKeyFile = some f → jsTrim f ≠ "" → fs (jsTrim f) = some c →
      jsTrim c ≠ "" →
      resolveDbEncryptionKey aid cfg penv fs = (jsTrim c, XmtpSecretSource.secretFile))
    ∧ (dbFileFallthrough cfg fs → jsTrim (cfg.dbEncryptionKey.getD "") ≠ "" →
      resolveDbEncryptionKey aid cfg penv fs
        = (jsTrim (cfg.dbEncryptionKey.getD ""), XmtpSecretSource.config))
    ∧ (dbFileFallthrough cfg fs → jsTrim (cfg.dbEncryptionKey.getD "") = "" →
      aid = DEFAULT_ACCOUNT_ID → jsTrim (penv.XMTP_DB_ENCRYPTION_KEY.getD "") ≠ "" →
      resolveDbEncryptionKey aid cfg penv fs
        = (jsTrim (penv.XMTP_DB_ENCRYPTION_KEY.getD ""), XmtpSecretSource.env))
    ∧ (dbFileFallthrough cfg fs → jsTrim (cfg.dbEncryptionKey.getD "") = "" →
      aid ≠ DEFAULT_ACCOUNT_ID →
      resolveDbEncryptionKey aid cfg penv fs = ("", XmtpSecretSource.none))
    ∧ (aid ≠ DEFAULT_ACCOUNT_ID →
      resolveDbEncryptionKey aid cfg penv fs = resolveDbEncryptionKey aid cfg penv' fs) := by
  refine ⟨?_, ?_, ?_, ?_, ?_, ?_, ?_, ?_, ?_, ?_, ?_, ?_⟩
  · intro f hsome hfb hread
    unfold resolveWalletKey
    rw [hsome]
    simp only [if_neg hfb, hread]
  · intro f c hsome hfb hread hcb
    unfold resolveWalletKey
    rw [hsome]
    simp only [if_neg hfb, hread, if_neg hcb]
  · intro hf hk
    rw [resolveWalletKey_fallthrough aid cfg penv fs hf]
    simp only [if_pos hk]
  · intro hf hk haid he
    rw [resolveWalletKey_fallthrough aid cfg penv fs hf]
    simp only [hk, haid]
    simp [he]
  · intro hf hk haid
    rw [resolveWalletKey_fallthrough aid cfg penv fs hf]
    simp only [hk]
    simp [haid]
  · intro haid
    unfold resolveWalletKey
    rcases hfile : cfg.walletKeyFile with _ | f
    · simp [haid]
    · by_cases hfb : jsTrim f = ""
      · simp [hfb, haid]
      · rcases hread : fs (jsTrim f) with _ | c
        · simp [hfb, hread]
        · by_cases hcb : jsTrim c = ""
          · simp [hfb, hread, hcb, haid]
          · simp [hfb, hread, hcb]
  · intro f hsome hfb hread
    unfold resolveDbEncryptionKey
    rw [hsome]
    simp only [if_neg hfb, hread]
  · intro f c hsome hfb hread hcb
    unfold resolveDbEncryptionKey
    rw [hsome]
    simp only [if_neg hfb, hread, if_neg hcb]
  · intro hf hk
    rw [resolveDbEncryptionKey_fallthrough aid cfg penv fs hf]
    simp only [if_pos hk]
  · intro hf hk haid he
    rw [resolveDbEncryptionKey_fallthrough aid cfg penv fs hf]
    simp only [hk, haid]
    simp [he]
  · intro hf hk haid
    rw [resolveDbEncryptionKey_fallthrough aid cfg penv fs hf]
    simp only [hk]
    simp [haid]
  · intro haid
    unfold resolveDbEncryptionKey
    rcases hfile : cfg.dbEncryptionKeyFile with _ | f
    · simp [haid]
    · by_cases hfb : jsTrim f = ""
      · simp [hfb, haid]
      · rcases hread : fs (jsTrim f) with _ | c
        · simp [hfb, hread]
        · by_cases hcb : jsTrim c = ""
          · simp [hfb, hread, hcb, haid]
          · simp [hfb, hread, hcb]

/-- Witness for `secret_precedence_c6`: a non-blank readable file wins for the
wallet key, and a named account never consults the environment variable. -/
theorem secret_precedence_c6_witness :
    resolveWalletKey "default"
        { emptyAccountConfig with walletKeyFile := some "wf", walletKey := some "0xinline" }
        ⟨some "0xenv", Option.none⟩
        (fun p => if p = "wf" then some " 0xfilekey " else Option.none)
      = (jsTrim " 0xfilekey ", XmtpSecretSource.secretFile)
    ∧ resolveDbEncryptionKey "alice"
        { emptyAccountConfig with dbEncryptionKey := some "" }
        ⟨Option.none, some "0xenvdb"⟩ (fun _ => Option.none)
      = resolveDbEncryptionKey "alice"
        { emptyAccountConfig with dbEncryptionKey := some "" }
        ⟨Option.none, Option.none⟩ (fun _ => Option.none) :=
  ⟨(secret_precedence_c6 "default"
      { emptyAccountConfig with walletKeyFile := some "wf", walletKey := some "0xinline" }
      ⟨some "0xenv", Option.none⟩ ⟨some "0xenv", Option.none⟩
      (fun p => if p = "wf" then some " 0xfilekey " else Option.none)).2.1
    "wf" " 0xfilekey " rfl (by decide) rfl (by decide),
   (secret_precedence_c6 "alice" { emptyAccountConfig with dbEncryptionKey := some "" }
      ⟨Option.none, some "0xenvdb"⟩ ⟨Option.none, Option.none⟩ (fun _ => Option.none)).2.2.2.2.2.2.2.2.2.2.2
    (by decide)⟩

/-- Wallet key used throughout the repository's tests. -/
def TEST_WALLET_KEY : String :=
  "0x0123456789abcdef0123456789abcdef0123456789abcdef0123456789abcdef"

/-- A checksum-cased (mixed-case) 40-hex-digit address, as viem returns. -/
def c2SampleAddress : String := "0xAbCdEf0123456789aBcDeF0123456789AbCdEf01"

/-- Concrete stand-in for viem's `privateKeyToAccount`: succeeds exactly on
`TEST_WALLET_KEY`, returning a checksummed address. -/
def c2Priv : String → Option String :=
  fun k => if k = TEST_WALLET_KEY then some c2SampleAddress else Option.none

theorem c2Priv_wellFormed : ∀ k a, c2Priv k = some a → isHexAddress40 a = true := by
  intro k a h
  unfold c2Priv at h
  by_cases hk : k = TEST_WALLET_KEY
  · rw [if_pos hk] at h
    injection h with h
    rw [← h]
    decide
  · rw [if_neg hk] at h
    exact absurd h (by simp)

/-- C2 (counterexample to the claim as stated): a configuration whose wallet
secret is a valid hex private key (derivation succeeds) but whose session
secret is absent yields `address = ""` — not a lower-case 40-hex-digit
`0x` string — because the code derives the address only when `configured`. -/
theorem resolve_account_address_c2_counterexample :
    (∀ k a, c2Priv k = some a → isHexAddress40 a = true)
    ∧ (resolveXmtpAccount c2Priv
        ⟨some ⟨{ emptyAccountConfig with walletKey := some TEST_WALLET_KEY }, Option.none⟩⟩
        ⟨Option.none, Option.none⟩ (fun _ => Option.none) Option.none).walletKey
      = TEST_WALLET_KEY
    ∧ c2Priv TEST_WALLET_KEY = some c2SampleAddress
    ∧ (resolveXmtpAccount c2Priv
        ⟨some ⟨{ emptyAccountConfig with walletKey := some TEST_WALLET_KEY }, Option.none⟩⟩
        ⟨Option.none, Option.none⟩ (fun _ => Option.none) Option.none).address = ""
    ∧ isLowerEthAddress ((resolveXmtpAccount c2Priv
        ⟨some ⟨{ emptyAccountConfig with walletKey := some TEST_WALLET_KEY }, Option.none⟩⟩
        ⟨Option.none, Option.none⟩ (fun _ => Option.none) Option.none).address) = false := by
  refine ⟨c2Priv_wellFormed, ?_, ?_, ?_, ?_⟩
  · rfl
  · rfl
  · rfl
  · decide

/-- C2 (amended): whenever the account is configured (both secrets non-empty)
and derivation of the resolved wallet secret succeeds, the address is the
lower-cased derived address and matches `/^0x[0-9a-f]{40}$/`; whenever
derivation fails (invalid secret) the address is `""` with the error
swallowed; an unconfigured account also has `address = ""`; and `configured`
can be true with an invalid wallet secret when the session secret is
present. -/
theorem resolve_account_address_c2 (priv : String → Option String)
    (hpriv : ∀ k a, priv k = some a → isHexAddress40 a = true)
    (cfg : OpenClawConfig) (penv : ProcEnv) (fs : FileSystem) (aidOpt : Option String)
    (r : ResolvedXmtpAccount) (hr : r = resolveXmtpAccount priv cfg penv fs aidOpt) :
    (r.configured = true → ∀ a, priv r.walletKey = some a →
      r.address = jsToLower a ∧ isLowerEthAddress r.address = true)
    ∧ (priv r.walletKey = Option.none → r.address = "")
    ∧ (r.configured = false → r.address = "")
    ∧ ((resolveXmtpAccount (fun _ => Option.none)
        ⟨some ⟨{ emptyAccountConfig with
            walletKey := some "not-a-private-key"
            dbEncryptionKey := some "0xdb" }, Option.none⟩⟩
        ⟨Option.none, Option.none⟩ (fun _ => Option.none) Option.none).configured = true
      ∧ (resolveXmtpAccount (fun _ => Option.none)
        ⟨some ⟨{ emptyAccountConfig with
            walletKey := some "not-a-private-key"
            dbEncryptionKey := some "0xdb" }, Option.none⟩⟩
        ⟨Option.none, Option.none⟩ (fun _ => Option.none) Option.none).address = "") := by
  subst hr
  unfold resolveXmtpAccount
  simp only
  refine ⟨?_, ?_, ?_, by decide, by decide⟩
  all_goals
    generalize resolveWalletKey _ _ penv fs = wres
    generalize resolveDbEncryptionKey _ _ penv fs = dres
  · intro hc a ha
    have hprop : wres.1 ≠ "" ∧ dres.1 ≠ "" := of_decide_eq_true hc
    rw [if_pos hprop]
    unfold deriveAddressFromKey
    rw [ha]
    exact ⟨rfl, jsToLower_hexAddress (hpriv _ _ ha)⟩
  · intro hp
    by_cases hprop : wres.1 ≠ "" ∧ dres.1 ≠ ""
    · rw [if_pos hprop]
      unfold deriveAddressFromKey
      rw [hp]
    · rw [if_neg hprop]
  · intro hc
    have hprop : ¬(wres.1 ≠ "" ∧ dres.1 ≠ "") := of_decide_eq_false hc
    rw [if_neg hprop]

/-- Witness for `resolve_account_address_c2`: a configured account with a
derivable wallet key gets the lower-cased, well-formed address. -/
theorem resolve_account_address_c2_witness :
    ((resolveXmtpAccount c2Priv
        ⟨some ⟨{ emptyAccountConfig with
            walletKey := some TEST_WALLET_KEY
            dbEncryptionKey := some "0xdb" }, Option.none⟩⟩
        ⟨Option.none, Option.none⟩ (fun _ => Option.none) Option.none).configured = true →
      ∀ a, c2Priv (resolveXmtpAccount c2Priv
        ⟨some ⟨{ emptyAccountConfig with
            walletKey := some TEST_WALLET_KEY
            dbEncryptionKey := some "0xdb" }, Option.none⟩⟩
        ⟨Option.none, Option.none⟩ (fun _ => Option.none) Option.none).walletKey = some a →
      (resolveXmtpAccount c2Priv
        ⟨some ⟨{ emptyAccountConfig with
            walletKey := some TEST_WALLET_KEY
            dbEncryptionKey := some "0xdb" }, Option.none⟩⟩
        ⟨Option.none, Option.none⟩ (fun _ => Option.none) Option.none).address = jsToLower a
      ∧ isLowerEthAddress (resolveXmtpAccount c2Priv
        ⟨some ⟨{ emptyAccountConfig with
            walletKey := some TEST_WALLET_KEY
            dbEncryptionKey := some "0xdb" }, Option.none⟩⟩
        ⟨Option.none, Option.none⟩ (fun _ => Option.none) Option.none).address = true)
    ∧ (resolveXmtpAccount c2Priv
        ⟨some ⟨{ emptyAccountConfig with
            walletKey := some TEST_WALLET_KEY
            dbEncryptionKey := some "0xdb" }, Option.none⟩⟩
        ⟨Option.none, Option.none⟩ (fun _ => Option.none) Option.none).configured = true :=
  ⟨(resolve_account_address_c2 c2Priv c2Priv_wellFormed
      ⟨some ⟨{ emptyAccountConfig with
          walletKey := some TEST_WALLET_KEY
          dbEncryptionKey := some "0xdb" }, Option.none⟩⟩
      ⟨Option.none, Option.none⟩ (fun _ => Option.none) Option.none _ rfl).1,
   by decide⟩

/-! ## Session-open retry loop (`xmtp-bus.ts`)

`startXmtpBus` tries `agent.start()` up to `DEFAULT_RETRY_ATTEMPTS` times with
exponential backoff and throws the last error if every attempt failed;
otherwise the `onConnect` callback fires.  Attempt outcomes are an explicit
input `outcomes : Nat → Except String Unit` (the result of `agent.start()` on
the n-th attempt, 1-based); sleeps and callbacks are trace effects. -/

/-- Constant `DEFAULT_RETRY_ATTEMPTS` in `xmtp-bus.ts`. -/
def DEFAULT_RETRY_ATTEMPTS : Nat := 3

/-- Constant `RETRY_BASE_DELAY_MS` in `xmtp-bus.ts`. -/
def RETRY_BASE_DELAY_MS : Nat := 2000

/-- Observable events of the startup retry loop. -/
inductive BusStartEffect
  | attempt (n : Nat)
  | sleep (ms : Nat)
  | connect
deriving Repr, DecidableEq

/-- The `for (attempt = 1; attempt <= DEFAULT_RETRY_ATTEMPTS; ...)` loop body:
on success break with no error; on failure record the error and, when more
attempts remain, sleep `RETRY_BASE_DELAY_MS * 2 ^ (attempt - 1)` ms and retry.
`remaining` is the number of loop iterations left (loop-counter fuel). -/
def retryFrom (outcomes : Nat → Except String Unit) (attempt remaining : Nat) :
    List BusStartEffect × Option String :=
  match remaining with
  | 0 => ([], Option.none)
  | r + 1 =>
    match outcomes attempt with
    | Except.ok _ => ([BusStartEffect.attempt attempt], Option.none)
    | Except.error e =>
      if attempt < DEFAULT_RETRY_ATTEMPTS then
        let delay := RETRY_BASE_DELAY_MS * 2 ^ (attempt - 1)
        let next := retryFrom outcomes (attempt + 1) r
        (BusStartEffect.attempt attempt :: BusStartEffect.sleep delay :: next.1, next.2)
      else ([BusStartEffect.attempt attempt], some e)

/-- From `xmtp-bus.ts` (`startXmtpBus` lines 335-355): run the retry loop; if
`lastStartError` remains set, throw it; otherwise fire `onConnect`. -/
def startBusRetry (outcomes : Nat → Except String Unit) :
    List BusStartEffect × Except String Unit :=
  let run := retryFrom outcomes 1 DEFAULT_RETRY_ATTEMPTS
  match run.2 with
  | some e => (run.1, Except.error e)
  | Option.none => (run.1 ++ [BusStartEffect.connect], Except.ok ())

/-- C9: the session open is attempted at most 3 times, sleeping 2000 ms after
the first failure and 4000 ms after the second; three failures make the open
fail with the third error and no fourth attempt is made; a success stops
retrying and fires the connect callback. -/
theorem bus_retry_c9 (outcomes : Nat → Except String Unit) (e1 e2 e3 : String) :
    (∀ n, BusStartEffect.attempt n ∈ (startBusRetry outcomes).1 → 1 ≤ n ∧ n ≤ 3)
    ∧ (outcomes 1 = Except.ok () →
      startBusRetry outcomes = ([BusStartEffect.attempt 1, BusStartEffect.connect],
        Except.ok ()))
    ∧ (outcomes 1 = Except.error e1 → outcomes 2 = Except.ok () →
      startBusRetry outcomes = ([BusStartEffect.attempt 1, BusStartEffect.sleep 2000,
        BusStartEffect.attempt 2, BusStartEffect.connect], Except.ok ()))
    ∧ (outcomes 1 = Except.error e1 → outcomes 2 = Except.error e2 →
      outcomes 3 = Except.ok () →
      startBusRetry outcomes = ([BusStartEffect.attempt 1, BusStartEffect.sleep 2000,
        BusStartEffect.attempt 2, BusStartEffect.sleep 4000, BusStartEffect.attempt 3,
        BusStartEffect.connect], Except.ok ()))
    ∧ (outcomes 1 = Except.error e1 → outcomes 2 = Except.error e2 →
      outcomes 3 = Except.error e3 →
      startBusRetry outcomes = ([BusStartEffect.attempt 1, BusStartEffect.sleep 2000,
        BusStartEffect.attempt 2, BusStartEffect.sleep 4000, BusStartEffect.attempt 3],
        Except.error e3)) := by
  refine ⟨?_, ?_, ?_, ?_, ?_⟩
  · intro n hn
    unfold startBusRetry at hn
    rcases h1 : outcomes 1 with e1' | u1 <;>
      rcases h2 : outcomes 2 with e2' | u2 <;>
      rcases h3 : outcomes 3 with e3' | u3 <;>
      simp only [startBusRetry, retryFrom, DEFAULT_RETRY_ATTEMPTS, RETRY_BASE_DELAY_MS,
        h1, h2, h3] at hn <;>
      (simp at hn; omega)
  · intro h1
    simp [startBusRetry, retryFrom, DEFAULT_RETRY_ATTEMPTS, h1]
  · intro h1 h2
    simp [startBusRetry, retryFrom, DEFAULT_RETRY_ATTEMPTS, RETRY_BASE_DELAY_MS, h1, h2]
  · intro h1 h2 h3
    simp [startBusRetry, retryFrom, DEFAULT_RETRY_ATTEMPTS, RETRY_BASE_DELAY_MS, h1, h2, h3]
  · intro h1 h2 h3
    simp [startBusRetry, retryFrom, DEFAULT_RETRY_ATTEMPTS, RETRY_BASE_DELAY_MS, h1, h2, h3]

/-- Witness for `bus_retry_c9`: three consecutive failures yield the third
error after exactly three attempts with 2000 ms and 4000 ms sleeps. -/
theorem bus_retry_c9_witness :
    startBusRetry (fun n => Except.error ("boom" ++ toString n))
      = ([BusStartEffect.attempt 1, BusStartEffect.sleep 2000, BusStartEffect.attempt 2,
          BusStartEffect.sleep 4000, BusStartEffect.attempt 3],
         Except.error ("boom" ++ toString 3)) :=
  (bus_retry_c9 (fun n => Except.error ("boom" ++ toString n)) ("boom" ++ toString 1)
    ("boom" ++ toString 2) ("boom" ++ toString 3)).2.2.2.2 rfl rfl rfl

/-! ## ERC-8004 registration engine (`erc8004.ts`)

The viem chain tables (`chainById`, `chainByAlias`, built at module load from
the external `viem/chains` dataset) are abstracted as a `ChainRegistry`; all
code below them (`resolveChainByInput`'s parsing, override picking, RPC and
registry resolution, the target loop, token URI resolution and the per-chain
registration loop) is translated from the source. -/

/-- Chain metadata as used by the engine (`viem`'s `Chain`, restricted to the
fields the source reads). -/
structure Chain where
  id : Nat
  name : String
  rpcDefaultHttp : List String
  rpcPublicHttp : Option (List String)
deriving Repr, DecidableEq

/-- The module-level lookup tables plus viem's `mainnet` constant. -/
structure ChainRegistry where
  byId : Nat → Option Chain
  byAlias : String → Option Chain
  mainnet : Chain

/-- From `erc8004.ts`: `normalizeAlias` — trim, lower-case, strip everything
outside `[a-z0-9]`. -/
def normalizeAlias (input : String) : String :=
  ⟨((jsTrim input).data.map jsLowerChar).filter isLowerAlnumChar⟩

/-- Numeric value of a digit string. -/
def digitsOfChars (l : List Char) : Nat :=
  l.foldl (fun acc c => acc * 10 + (c.toNat - 48)) 0

/-- Test for `/^eip155:(\d+)$/i`, returning the parsed chain id. -/
def parseEip155 (s : String) : Option Nat :=
  match s.data.map jsLowerChar with
  | 'e' :: 'i' :: 'p' :: '1' :: '5' :: '5' :: ':' :: rest =>
    if rest ≠ [] ∧ rest.all isDigitChar then some (digitsOfChars rest) else Option.none
  | _ => Option.none

/-- Test for `/^\d+$/`. -/
def isAllDigits (s : String) : Bool := s.data ≠ [] ∧ s.data.all isDigitChar

/-- From `erc8004.ts`: `resolveChainByInput` — empty input resolves to nothing;
an `eip155:<id>` or plain decimal input is looked up by id; anything else by
normalized alias. -/
def resolveChainByInput (reg : ChainRegistry) (input : String) : Option Chain :=
  let trimmed := jsTrim input
  if trimmed = "" then Option.none
  else
    match parseEip155 trimmed with
    | some n => reg.byId n
    | Option.none =>
      if isAllDigits trimmed then reg.byId (digitsOfChars trimmed.data)
      else reg.byAlias (normalizeAlias trimmed)

/-- `string | number` entries of `defaultChains`. -/
inductive ChainRef
  | str (s : String)
  | num (n : Nat)
deriving Repr, DecidableEq

/-- JS `String(entry)` on a `defaultChains` entry. -/
def ChainRef.toStringVal : ChainRef → String
  | ChainRef.str s => s
  | ChainRef.num n => toString n

/-- `channels.xmtp.erc8004` configuration (`XmtpCommandAccountConfig`). -/
structure Erc8004Config where
  tokenUri : Option String
  defaultChains : Option (List ChainRef)
  rpcUrls : Option (List (String × String))
  registryAddresses : Option (List (String × String))
deriving Repr, DecidableEq

/-- From `erc8004.ts`: `pickOverride` — first entry with a non-blank value
whose normalized key is among the normalized aliases; returns the trimmed
value. -/
def pickOverride (record : Option (List (String × String))) (aliases : List String) :
    Option String :=
  match record with
  | Option.none => Option.none
  | some entries =>
    let aliasSet := aliases.map normalizeAlias
    (entries.find? fun kv =>
        jsTrim kv.2 ≠ "" ∧ aliasSet.contains (normalizeAlias kv.1)).map
      (fun kv => jsTrim kv.2)

/-- Modelled from the spec: `DEFAULT_ERC8004_REGISTRY_ADDRESS` lives in
`constants.ts`, which is not among the provided sources; per the spec it is a
built-in well-formed default registry address, modelled as a fixed lower-case
address literal. -/
def DEFAULT_ERC8004_REGISTRY_ADDRESS : String :=
  "0x00000000000000000000000000000000F0008004"

/-- Modelled from the spec: viem's `isAddress` (external library) checks for a
well-formed `0x` + 40-hex-digit address; the checksum validation viem applies
to mixed-case inputs is not modelled (no claim depends on it). -/
def isAddress (s : String) : Bool := isHexAddress40 s

/-- Fallback step of `resolveRpcUrl`: the chain's public HTTP endpoint, else
the thrown "No RPC URL available" error. -/
def rpcPublicStep (chain : Chain) : Except String String :=
  match (chain.rpcPublicHttp.getD []).head? with
  | some publicUrl =>
    if jsTrim publicUrl ≠ "" then Except.ok (jsTrim publicUrl)
    else Except.error
      ("No RPC URL available for chain " ++ chain.name ++ " (" ++ toString chain.id ++ ")")
  | Option.none => Except.error
      ("No RPC URL available for chain " ++ chain.name ++ " (" ++ toString chain.id ++ ")")

/-- From `erc8004.ts`: `resolveRpcUrl` — configured override (by id, name, or
`eip155:` alias), else the chain's default HTTP endpoint, else its public one,
else a thrown error. -/
def resolveRpcUrl (chain : Chain) (overrides : Option (List (String × String))) :
    Except String String :=
  let aliasKeys := [toString chain.id, chain.name, "eip155:" ++ toString chain.id]
  match pickOverride overrides aliasKeys with
  | some override => Except.ok override
  | Option.none =>
    match chain.rpcDefaultHttp.head? with
    | some defaultUrl =>
      if jsTrim defaultUrl ≠ "" then Except.ok (jsTrim defaultUrl)
      else rpcPublicStep chain
    | Option.none => rpcPublicStep chain

/-- From `erc8004.ts`: `resolveRegistryAddress` — configured override else the
built-in default; must pass the well-formed-address check, and is returned
lower-cased. -/
def resolveRegistryAddress (chain : Chain) (overrides : Option (List (String × String))) :
    Except String String :=
  let aliasKeys := [toString chain.id, chain.name, "eip155:" ++ toString chain.id]
  let rawAddress := (pickOverride overrides aliasKeys).getD DEFAULT_ERC8004_REGISTRY_ADDRESS
  if isAddress rawAddress then Except.ok (jsToLower rawAddress)
  else Except.error
    ("Invalid ERC-8004 registry address for " ++ chain.name ++ ": " ++ rawAddress)

/-- Resolved registration target (`ResolvedTargetChain`). -/
structure ResolvedTargetChain where
  chain : Chain
  rpcUrl : String
  registryAddress : String
deriving Repr, DecidableEq

/-- Input selection of `resolveErc8004TargetChains`: requested chains when
non-empty, else the account/config default chains (stringified) when
non-empty, else `["mainnet"]`. -/
def selectChainInputs (requestedChains : Option (List String))
    (acct : Option Erc8004Config) : List String :=
  let fallbackChainInputs := ((acct.bind (·.defaultChains)).getD []).map ChainRef.toStringVal
  match requestedChains with
  | some l => if l ≠ [] then l else if fallbackChainInputs ≠ [] then fallbackChainInputs
      else ["mainnet"]
  | Option.none => if fallbackChainInputs ≠ [] then fallbackChainInputs else ["mainnet"]

/-- The `for (const chainInput of rawChainInputs)` loop of
`resolveErc8004TargetChains`, carrying the `chains`, `seen` and `unknown`
accumulators; an RPC or registry resolution error propagates immediately
(the source does not catch it). -/
def targetLoop (reg : ChainRegistry) (rpcUrls registryAddresses : Option (List (String × String))) :
    List String → List ResolvedTargetChain → List Nat → List String →
    Except String (List ResolvedTargetChain × List String)
  | [], chains, _, unknown => Except.ok (chains, unknown)
  | input :: rest, chains, seen, unknown =>
    match resolveChainByInput reg input with
    | Option.none =>
      targetLoop reg rpcUrls registryAddresses rest chains seen (unknown ++ [input])
    | some c =>
      if seen.contains c.id then
        targetLoop reg rpcUrls registryAddresses rest chains seen unknown
      else
        match resolveRpcUrl c rpcUrls with
        | Except.error e => Except.error e
        | Except.ok rpc =>
          match resolveRegistryAddress c registryAddresses with
          | Except.error e => Except.error e
          | Except.ok addr =>
            targetLoop reg rpcUrls registryAddresses rest
              (chains ++ [⟨c, rpc, addr⟩]) (seen ++ [c.id]) unknown

/-- From `erc8004.ts`: `resolveErc8004TargetChains` — run the loop over the
selected inputs; any unknown inputs abort with an error naming all of them;
an empty chain list falls back to mainnet (unreachable, mirrored from the
source). -/
def resolveErc8004TargetChains (reg : ChainRegistry)
    (requestedChains : Option (List String)) (acct : Option Erc8004Config) :
    Except String (List ResolvedTargetChain) :=
  let inputs := selectChainInputs requestedChains acct
  let rpcUrls := acct.bind (·.rpcUrls)
  let registryAddresses := acct.bind (·.registryAddresses)
  match targetLoop reg rpcUrls registryAddresses inputs [] [] [] with
  | Except.error e => Except.error e
  | Except.ok (chains, unknown) =>
    if unknown ≠ [] then
      Except.error ("Unsupported chain(s): " ++ String.intercalate ", " unknown)
    else if chains = [] then
      match resolveRpcUrl reg.mainnet rpcUrls with
      | Except.error e => Except.error e
      | Except.ok rpc =>
        match resolveRegistryAddress reg.mainnet registryAddresses with
        | Except.error e => Except.error e
        | Except.ok addr => Except.ok [⟨reg.mainnet, rpc, addr⟩]
    else Except.ok chains

/-- First-seen-order deduplication relative to already-seen ids. -/
def dedupSeen (seen : List Nat) : List Nat → List Nat
  | [] => []
  | x :: xs => if seen.contains x then dedupSeen seen xs
               else x :: dedupSeen (seen ++ [x]) xs

/-- First-seen-order deduplication. -/
def dedupKeepFirst (l : List Nat) : List Nat := dedupSeen [] l

/-! ### Loop lemmas for target-chain resolution -/

theorem dedupSeen_nodup : ∀ (l seen : List Nat),
    (dedupSeen seen l).Nodup ∧ ∀ x ∈ dedupSeen seen l, x ∉ seen := by
  intro l
  induction l with
  | nil => intro seen; simp [dedupSeen]
  | cons x xs ih =>
    intro seen
    unfold dedupSeen
    by_cases hx : seen.contains x
    · rw [if_pos hx]
      exact ih seen
    · rw [if_neg hx]
      obtain ⟨hnd, hmem⟩ := ih (seen ++ [x])
      refine ⟨List.Nodup.cons ?_ hnd, ?_⟩
      · intro hxin
        exact hmem x hxin (by simp)
      · intro y hy
        rcases List.mem_cons.mp hy with rfl | hy'
        · simpa using hx
        · intro hcon
          exact hmem y hy' (by simp [hcon])

theorem dedupSeen_cons_of_mem {seen : List Nat} {x : Nat} (h : seen.contains x = true)
    (xs : List Nat) : dedupSeen seen (x :: xs) = dedupSeen seen xs := by
  show (if seen.contains x = true then dedupSeen seen xs
        else x :: dedupSeen (seen ++ [x]) xs) = dedupSeen seen xs
  rw [if_pos h]

theorem dedupSeen_cons_of_not_mem {seen : List Nat} {x : Nat}
    (h : ¬seen.contains x = true) (xs : List Nat) :
    dedupSeen seen (x :: xs) = x :: dedupSeen (seen ++ [x]) xs := by
  show (if seen.contains x = true then dedupSeen seen xs
        else x :: dedupSeen (seen ++ [x]) xs) = x :: dedupSeen (seen ++ [x]) xs
  rw [if_neg h]

theorem targetLoop_ok_char (reg : ChainRegistry)
    (rpcs regs : Option (List (String × String))) :
    ∀ (inputs : List String) (chains chains' : List ResolvedTargetChain)
      (seen : List Nat) (unknown unknown' : List String),
    targetLoop reg rpcs regs inputs chains seen unknown = Except.ok (chains', unknown') →
    unknown' = unknown ++ inputs.filter (fun i => (resolveChainByInput reg i).isNone)
    ∧ chains'.map (fun t => t.chain.id)
        = chains.map (fun t => t.chain.id)
          ++ dedupSeen seen (inputs.filterMap
              (fun i => (resolveChainByInput reg i).map (·.id))) := by
  intro inputs
  induction inputs with
  | nil =>
    intro chains chains' seen unknown unknown' h
    unfold targetLoop at h
    simp only [Except.ok.injEq, Prod.mk.injEq] at h
    obtain ⟨h1, h2⟩ := h
    subst h1; subst h2
    simp [dedupSeen]
  | cons i rest ih =>
    intro chains chains' seen unknown unknown' h
    unfold targetLoop at h
    rcases hr : resolveChainByInput reg i with _ | c <;> simp only [hr] at h
    · obtain ⟨h1, h2⟩ := ih _ _ _ _ _ h
      constructor
      · rw [h1]
        simp [List.filter_cons, hr]
      · rw [h2]
        simp [List.filterMap_cons, hr]
    · have hfm : (i :: rest).filterMap (fun i => (resolveChainByInput reg i).map (·.id))
          = c.id :: rest.filterMap (fun i => (resolveChainByInput reg i).map (·.id)) := by
        simp [List.filterMap_cons, hr]
      by_cases hs : seen.contains c.id
      · rw [if_pos hs] at h
        obtain ⟨h1, h2⟩ := ih _ _ _ _ _ h
        constructor
        · rw [h1]
          simp [List.filter_cons, hr]
        · rw [h2, hfm, dedupSeen_cons_of_mem hs]
      · rw [if_neg hs] at h
        rcases hrpc : resolveRpcUrl c rpcs with e | rpc <;> rw [hrpc] at h
        · exact absurd h (by simp)
        · rcases hreg : resolveRegistryAddress c regs with e | addr <;> rw [hreg] at h
          · exact absurd h (by simp)
          · obtain ⟨h1, h2⟩ := ih _ _ _ _ _ h
            constructor
            · rw [h1]
              simp [List.filter_cons, hr]
            · rw [h2, hfm, dedupSeen_cons_of_not_mem hs]
              simp [List.map_append]

theorem targetLoop_total_ok (reg : ChainRegistry)
    (rpcs regs : Option (List (String × String))) :
    ∀ (inputs : List String) (chains : List ResolvedTargetChain) (seen : List Nat)
      (unknown : List String),
    (∀ c ∈ inputs.filterMap (resolveChainByInput reg),
      (∃ u, resolveRpcUrl c rpcs = Except.ok u)
      ∧ (∃ a, resolveRegistryAddress c regs = Except.ok a)) →
    ∃ chains', targetLoop reg rpcs regs inputs chains seen unknown
      = Except.ok (chains',
          unknown ++ inputs.filter (fun i => (resolveChainByInput reg i).isNone)) := by
  intro inputs
  induction inputs with
  | nil =>
    intro chains seen unknown _
    exact ⟨chains, by simp [targetLoop]⟩
  | cons i rest ih =>
    intro chains seen unknown hok
    unfold targetLoop
    rcases hr : resolveChainByInput reg i with _ | c <;> simp only [hr]
    · have hok' : ∀ c ∈ rest.filterMap (resolveChainByInput reg),
          (∃ u, resolveRpcUrl c rpcs = Except.ok u)
          ∧ (∃ a, resolveRegistryAddress c regs = Except.ok a) := by
        intro c hc
        exact hok c (by simp [List.filterMap_cons, hr, hc])
      obtain ⟨chains', hch⟩ := ih chains seen (unknown ++ [i]) hok'
      refine ⟨chains', ?_⟩
      rw [hch]
      simp [List.filter_cons, hr]
    · have hcmem : c ∈ (i :: rest).filterMap (resolveChainByInput reg) :=
        List.mem_filterMap.mpr ⟨i, List.mem_cons_self i rest, hr⟩
      have hok' : ∀ c ∈ rest.filterMap (resolveChainByInput reg),
          (∃ u, resolveRpcUrl c rpcs = Except.ok u)
          ∧ (∃ a, resolveRegistryAddress c regs = Except.ok a) := by
        intro c' hc'
        rcases List.mem_filterMap.mp hc' with ⟨a, ha, he⟩
        exact hok c' (List.mem_filterMap.mpr ⟨a, List.mem_cons_of_mem i ha, he⟩)
      by_cases hs : seen.contains c.id
      · rw [if_pos hs]
        obtain ⟨chains', hch⟩ := ih chains seen unknown hok'
        refine ⟨chains', ?_⟩
        rw [hch]
        simp [List.filter_cons, hr]
      · rw [if_neg hs]
        obtain ⟨⟨u, hu⟩, ⟨a, ha⟩⟩ := hok c hcmem
        simp only [hu, ha]
        obtain ⟨chains', hch⟩ := ih (chains ++ [⟨c, u, a⟩]) (seen ++ [c.id]) unknown hok'
        refine ⟨chains', ?_⟩
        rw [hch]
        simp [List.filter_cons, hr]

theorem selectChainInputs_ne_nil (requestedChains : Option (List String))
    (acct : Option Erc8004Config) : selectChainInputs requestedChains acct ≠ [] := by
  unfold selectChainInputs
  rcases requestedChains with _ | l <;> dsimp only
  · split_ifs with h1
    · exact h1
    · simp
  · split_ifs with h1 h2
    · exact h1
    · exact h2
    · simp

/-- C7 (counterexample to the claim as stated): with inputs
`["nosuch", "mainnet"]` where `"nosuch"` is unresolvable and a registry
override makes the resolvable mainnet's address invalid, the whole resolution
fails — but with the registry-address error thrown inside the loop, not with
an error naming the unresolved input. -/
theorem erc8004_target_chains_c7_counterexample :
    resolveChainByInput
        ⟨fun n => if n = 1 then some ⟨1, "Ethereum", ["https://eth.merkle.io"], Option.none⟩
          else Option.none,
         fun a => if a = "mainnet" then some ⟨1, "Ethereum", ["https://eth.merkle.io"],
           Option.none⟩ else Option.none,
         ⟨1, "Ethereum", ["https://eth.merkle.io"], Option.none⟩⟩ "nosuch" = Option.none
    ∧ resolveErc8004TargetChains
        ⟨fun n => if n = 1 then some ⟨1, "Ethereum", ["https://eth.merkle.io"], Option.none⟩
          else Option.none,
         fun a => if a = "mainnet" then some ⟨1, "Ethereum", ["https://eth.merkle.io"],
           Option.none⟩ else Option.none,
         ⟨1, "Ethereum", ["https://eth.merkle.io"], Option.none⟩⟩
        (some ["nosuch", "mainnet"])
        (some ⟨Option.none, Option.none, Option.none, some [("1", "garbage")]⟩)
      = Except.error "Invalid ERC-8004 registry address for Ethereum: garbage"
    ∧ "Invalid ERC-8004 registry address for Ethereum: garbage"
      ≠ "Unsupported chain(s): nosuch" := by
  refine ⟨rfl, ?_, by decide⟩
  rfl

/-- C7 (amended): the chain inputs are the requested chains if non-empty, else
the config's default chains if non-empty, else `["mainnet"]`; on success the
target list's chain ids are the resolvable inputs' ids deduplicated in
first-seen order (hence without duplicates); and when some input is
unresolvable and every resolvable input's RPC and registry resolution succeeds,
the whole resolution fails with `Unsupported chain(s):` naming every
unresolved input (an RPC or registry failure on a resolvable chain instead
aborts with that error; no partial target list is ever produced). -/
theorem erc8004_target_chains_c7 (reg : ChainRegistry)
    (requestedChains : Option (List String)) (acct : Option Erc8004Config) :
    ((∀ l, requestedChains = some l → l ≠ [] →
        selectChainInputs requestedChains acct = l)
     ∧ (requestedChains.getD [] = [] →
        ∀ dcs, acct.bind (·.defaultChains) = some dcs → dcs ≠ [] →
        selectChainInputs requestedChains acct = dcs.map ChainRef.toStringVal)
     ∧ (requestedChains.getD [] = [] → (acct.bind (·.defaultChains)).getD [] = [] →
        selectChainInputs requestedChains acct = ["mainnet"]))
    ∧ (∀ ts, resolveErc8004TargetChains reg requestedChains acct = Except.ok ts →
        ts.map (fun t => t.chain.id)
          = dedupKeepFirst ((selectChainInputs requestedChains acct).filterMap
              (fun i => (resolveChainByInput reg i).map (·.id)))
        ∧ (ts.map (fun t => t.chain.id)).Nodup)
    ∧ ((∃ i ∈ selectChainInputs requestedChains acct,
          resolveChainByInput reg i = Option.none) →
       (∀ c ∈ (selectChainInputs requestedChains acct).filterMap (resolveChainByInput reg),
         (∃ u, resolveRpcUrl c (acct.bind (·.rpcUrls)) = Except.ok u)
         ∧ (∃ a, resolveRegistryAddress c (acct.bind (·.registryAddresses)) = Except.ok a)) →
       resolveErc8004TargetChains reg requestedChains acct
         = Except.error ("Unsupported chain(s): " ++ String.intercalate ", "
             ((selectChainInputs requestedChains acct).filter
               (fun i => (resolveChainByInput reg i).isNone)))) := by
  refine ⟨⟨?_, ?_, ?_⟩, ?_, ?_⟩
  · intro l hl hne
    subst hl
    unfold selectChainInputs
    dsimp only
    rw [if_pos hne]
  · intro hreq dcs hdcs hne
    have hmapne : dcs.map ChainRef.toStringVal ≠ [] := by
      simpa using hne
    unfold selectChainInputs
    rcases requestedChains with _ | l
    · dsimp only
      rw [hdcs]
      simp [hmapne]
    · have : l = [] := by simpa using hreq
      subst this
      dsimp only
      rw [if_neg (by simp), hdcs]
      simp [hmapne]
  · intro hreq hdcs
    unfold selectChainInputs
    have hfall : ((acct.bind (·.defaultChains)).getD []).map ChainRef.toStringVal = [] := by
      rw [hdcs]; rfl
    rcases requestedChains with _ | l
    · dsimp only
      rw [hfall]
      simp
    · have : l = [] := by simpa using hreq
      subst this
      dsimp only
      rw [if_neg (by simp), hfall]
      simp
  · intro ts hts
    unfold resolveErc8004TargetChains at hts
    rcases hloop : targetLoop reg (acct.bind (·.rpcUrls)) (acct.bind (·.registryAddresses))
        (selectChainInputs requestedChains acct) [] [] [] with e | p
    · simp only [hloop] at hts
      exact absurd hts (by simp)
    obtain ⟨chains, unknown⟩ := p
    simp only [hloop] at hts
    obtain ⟨hu, hc⟩ := targetLoop_ok_char reg _ _ _ _ _ _ _ _ hloop
    simp only [List.nil_append, List.map_nil] at hu hc
    by_cases hune : unknown ≠ []
    · rw [if_pos hune] at hts
      exact absurd hts (by simp)
    · rw [if_neg hune] at hts
      push_neg at hune
      subst hune
      by_cases hce : chains = []
      · exfalso
        rcases hin : selectChainInputs requestedChains acct with _ | ⟨i, rest⟩
        · exact selectChainInputs_ne_nil requestedChains acct hin
        · rw [hin] at hu hc
          rcases hri : resolveChainByInput reg i with _ | c
          · have : i ∈ List.filter (fun i => (resolveChainByInput reg i).isNone) (i :: rest) :=
              List.mem_filter.mpr ⟨List.mem_cons_self i rest, by simp [hri]⟩
            rw [← hu] at this
            exact absurd this (by simp)
          · have hfm : (i :: rest).filterMap (fun i => (resolveChainByInput reg i).map (·.id))
                = c.id :: rest.filterMap (fun i => (resolveChainByInput reg i).map (·.id)) := by
              simp [List.filterMap_cons, hri]
            rw [hce, hfm, dedupSeen_cons_of_not_mem (by simp)] at hc
            exact absurd hc.symm (by simp)
      · rw [if_neg hce] at hts
        have hts' : chains = ts := by simpa using hts
        subst hts'
        refine ⟨hc, ?_⟩
        rw [hc]
        exact (dedupSeen_nodup _ _).1
  · intro hunres hok
    obtain ⟨chains', hch⟩ := targetLoop_total_ok reg _ _
      (selectChainInputs requestedChains acct) [] [] [] hok
    unfold resolveErc8004TargetChains
    simp only [hch, List.nil_append]
    obtain ⟨i, hi, hri⟩ := hunres
    have hmem : i ∈ (selectChainInputs requestedChains acct).filter
        (fun i => (resolveChainByInput reg i).isNone) :=
      List.mem_filter.mpr ⟨hi, by simp [hri]⟩
    rw [if_pos (List.ne_nil_of_mem hmem)]

/-- Witness for `erc8004_target_chains_c7`: `["1", "mainnet", "1"]` resolves to
a single deduplicated mainnet target, and an unresolvable input fails naming
it. -/
theorem erc8004_target_chains_c7_witness :
    (∀ ts, resolveErc8004TargetChains
        ⟨fun n => if n = 1 then some ⟨1, "Ethereum", ["https://eth.merkle.io"], Option.none⟩
          else Option.none,
         fun a => if a = "mainnet" then some ⟨1, "Ethereum", ["https://eth.merkle.io"],
           Option.none⟩ else Option.none,
         ⟨1, "Ethereum", ["https://eth.merkle.io"], Option.none⟩⟩
        (some ["1", "mainnet", "1"]) Option.none = Except.ok ts →
      ts.map (fun t => t.chain.id)
        = dedupKeepFirst ((selectChainInputs (some ["1", "mainnet", "1"])
            Option.none).filterMap
            (fun i => (resolveChainByInput
              ⟨fun n => if n = 1 then some ⟨1, "Ethereum", ["https://eth.merkle.io"],
                Option.none⟩ else Option.none,
               fun a => if a = "mainnet" then some ⟨1, "Ethereum", ["https://eth.merkle.io"],
                 Option.none⟩ else Option.none,
               ⟨1, "Ethereum", ["https://eth.merkle.io"], Option.none⟩⟩ i).map (·.id)))
      ∧ (ts.map (fun t => t.chain.id)).Nodup)
    ∧ resolveErc8004TargetChains
        ⟨fun n => if n = 1 then some ⟨1, "Ethereum", ["https://eth.merkle.io"], Option.none⟩
          else Option.none,
         fun a => if a = "mainnet" then some ⟨1, "Ethereum", ["https://eth.merkle.io"],
           Option.none⟩ else Option.none,
         ⟨1, "Ethereum", ["https://eth.merkle.io"], Option.none⟩⟩
        (some ["1", "mainnet", "1"]) Option.none
      = Except.ok [⟨⟨1, "Ethereum", ["https://eth.merkle.io"], Option.none⟩,
          "https://eth.merkle.io", jsToLower DEFAULT_ERC8004_REGISTRY_ADDRESS⟩] :=
  ⟨(erc8004_target_chains_c7
      ⟨fun n => if n = 1 then some ⟨1, "Ethereum", ["https://eth.merkle.io"], Option.none⟩
        else Option.none,
       fun a => if a = "mainnet" then some ⟨1, "Ethereum", ["https://eth.merkle.io"],
         Option.none⟩ else Option.none,
       ⟨1, "Ethereum", ["https://eth.merkle.io"], Option.none⟩⟩
      (some ["1", "mainnet", "1"]) Option.none).2.1, by rfl⟩

/-! ### Per-chain registration (`registerXmtpAgentOnErc8004` loop) -/

/-- Outcomes of the external calls one chain's registration performs:
`feePrimary`/`feeSecondary` are the two fee-accessor reads (`Option.none`
models a throw or a non-bigint value, both swallowed), `send` is
`walletClient.sendTransaction` (tx hash or throw), `receipt` is
`waitForTransactionReceipt` (receipt status string or throw). -/
structure ChainWorld where
  feePrimary : Option Nat
  feeSecondary : Option Nat
  send : Except String String
  receipt : Except String String
deriving Repr, DecidableEq

/-- From `erc8004.ts`: `readRegistrationFee` — primary accessor, else
secondary, else `0n`. -/
def readRegistrationFee (feePrimary feeSecondary : Option Nat) : Nat :=
  ((feePrimary).or feeSecondary).getD 0

/-- Per-chain registration status. -/
inductive ChainRegistrationStatus
  | success
  | alreadyRegistered
  | failed
  | dryRun
deriving Repr, DecidableEq

/-- Per-chain result record (`Erc8004ChainRegistrationResult`). -/
structure Erc8004ChainRegistrationResult where
  chainId : Nat
  chainName : String
  registryAddress : String
  rpcUrl : String
  status : ChainRegistrationStatus
  registrationFeeWei : Option String
  txHash : Option String
  error : Option String
deriving Repr, DecidableEq

/-- Observable calls of one chain's registration step. -/
inductive ChainEffect
  | feeRead
  | submitTx
  | waitReceipt
deriving Repr, DecidableEq

/-- Case-insensitive prefix match against an already-lower-case pattern,
returning the rest of the input on success. -/
def stripCI : List Char → List Char → Option (List Char)
  | [], rest => some rest
  | _ :: _, [] => Option.none
  | p :: ps, c :: cs => if jsLowerChar c = p then stripCI ps cs else Option.none

/-- Match of `/already\s+registered/i` anchored at the head of the list. -/
def alreadyRegisteredHere (l : List Char) : Bool :=
  match stripCI "already".data l with
  | Option.none => false
  | some rest =>
    (rest.takeWhile isWsChar ≠ [] ∧ (stripCI "registered".data (rest.dropWhile isWsChar)).isSome)

/-- Whether any position of `l` matches `alreadyRegisteredHere`. -/
def anyTailMatch : List Char → Bool
  | [] => alreadyRegisteredHere []
  | c :: cs => alreadyRegisteredHere (c :: cs) || anyTailMatch cs

/-- Test of `/already\s+registered/i` on a message, as the source's error
classifier applies it. -/
def containsAlreadyRegistered (s : String) : Bool := anyTailMatch s.data

/-- The catch branch of the per-chain loop: classify the error message and
record it, with no fee and no tx hash. -/
def catchResult (t : ResolvedTargetChain) (message : String) : Erc8004ChainRegistrationResult :=
  { chainId := t.chain.id
    chainName := t.chain.name
    registryAddress := t.registryAddress
    rpcUrl := t.rpcUrl
    status := if containsAlreadyRegistered message then ChainRegistrationStatus.alreadyRegistered
              else ChainRegistrationStatus.failed
    registrationFeeWei := Option.none
    txHash := Option.none
    error := some message }

/-- One iteration of the `for (const target of targets)` loop in
`registerXmtpAgentOnErc8004`: read the fee; in dry-run record a `dry-run`
result without submitting; otherwise submit, wait for the receipt, and treat a
non-`success` status as a thrown "transaction reverted"; every throw is caught
and classified by `catchResult`. -/
def processTarget (w : ChainWorld) (dryRun : Bool) (t : ResolvedTargetChain) :
    Erc8004ChainRegistrationResult × List ChainEffect :=
  let registrationFee := readRegistrationFee w.feePrimary w.feeSecondary
  if dryRun then
    ({ chainId := t.chain.id
       chainName := t.chain.name
       registryAddress := t.registryAddress
       rpcUrl := t.rpcUrl
       status := ChainRegistrationStatus.dryRun
       registrationFeeWei := some (toString registrationFee)
       txHash := Option.none
       error := Option.none }, [ChainEffect.feeRead])
  else
    match w.send with
    | Except.error message => (catchResult t message, [ChainEffect.feeRead, ChainEffect.submitTx])
    | Except.ok txHash =>
      match w.receipt with
      | Except.error message =>
        (catchResult t message,
         [ChainEffect.feeRead, ChainEffect.submitTx, ChainEffect.waitReceipt])
      | Except.ok receiptStatus =>
        if receiptStatus ≠ "success" then
          (catchResult t "transaction reverted",
           [ChainEffect.feeRead, ChainEffect.submitTx, ChainEffect.waitReceipt])
        else
          ({ chainId := t.chain.id
             chainName := t.chain.name
             registryAddress := t.registryAddress
             rpcUrl := t.rpcUrl
             status := ChainRegistrationStatus.success
             registrationFeeWei := some (toString registrationFee)
             txHash := some txHash
             error := Option.none },
           [ChainEffect.feeRead, ChainEffect.submitTx, ChainEffect.waitReceipt])

/-- The whole per-chain loop: targets are processed in order, each with its own
world (indexed by position), one result per target regardless of failures. -/
def registerChains (worlds : Nat → ChainWorld) (dryRun : Bool) :
    List ResolvedTargetChain → Nat → List (Erc8004ChainRegistrationResult × List ChainEffect)
  | [], _ => []
  | t :: rest, i => processTarget (worlds i) dryRun t :: registerChains worlds dryRun rest (i + 1)

theorem registerChains_get (worlds : Nat → ChainWorld) (dryRun : Bool) :
    ∀ (targets : List ResolvedTargetChain) (k i : Nat),
    (registerChains worlds dryRun targets k).get? i
      = (targets.get? i).map (fun t => processTarget (worlds (k + i)) dryRun t) := by
  intro targets
  induction targets with
  | nil => intro k i; simp [registerChains]
  | cons t rest ih =>
    intro k i
    cases i with
    | zero => simp [registerChains]
    | succ j =>
      simp only [registerChains, List.get?_cons_succ]
      rw [ih (k + 1) j]
      have : k + 1 + j = k + (j + 1) := by omega
      rw [this]

/-- C8: each chain's registration step is independent (one result per target,
the i-th computed only from the i-th chain's world); with `dryRun` the status
is `dry-run` with the observed fee and no transaction is ever submitted; a
live run whose receipt status is not `success` is classified from the thrown
"transaction reverted", yielding `failed`; and every caught error is
classified `already-registered` exactly when its text matches
`/already\s+registered/i`, else `failed`, with the raw text retained. -/
theorem erc8004_register_c8 (worlds : Nat → ChainWorld) (dryRun : Bool)
    (targets : List ResolvedTargetChain) :
    ((registerChains worlds dryRun targets 0).length = targets.length
     ∧ ∀ i t, targets.get? i = some t →
        (registerChains worlds dryRun targets 0).get? i
          = some (processTarget (worlds i) dryRun t))
    ∧ (∀ w t, (processTarget w true t).1.status = ChainRegistrationStatus.dryRun
        ∧ (processTarget w true t).1.registrationFeeWei
            = some (toString (readRegistrationFee w.feePrimary w.feeSecondary))
        ∧ ChainEffect.submitTx ∉ (processTarget w true t).2)
    ∧ (∀ w t h st, w.send = Except.ok h → w.receipt = Except.ok st → st ≠ "success" →
        (processTarget w false t).1.status = ChainRegistrationStatus.failed
        ∧ (processTarget w false t).1.error = some "transaction reverted")
    ∧ (∀ w t m, w.send = Except.error m →
        (processTarget w false t).1.status
          = (if containsAlreadyRegistered m then ChainRegistrationStatus.alreadyRegistered
             else ChainRegistrationStatus.failed)
        ∧ (processTarget w false t).1.error = some m)
    ∧ (∀ w t h m, w.send = Except.ok h → w.receipt = Except.error m →
        (processTarget w false t).1.status
          = (if containsAlreadyRegistered m then ChainRegistrationStatus.alreadyRegistered
             else ChainRegistrationStatus.failed)
        ∧ (processTarget w false t).1.error = some m) := by
  refine ⟨⟨?_, ?_⟩, ?_, ?_, ?_, ?_⟩
  · induction targets with
    | nil => rfl
    | cons t rest ih =>
      show (registerChains worlds dryRun (t :: rest) 0).length = rest.length + 1
      have hlen : ∀ (l : List ResolvedTargetChain) (k : Nat),
          (registerChains worlds dryRun l k).length = l.length := by
        intro l
        induction l with
        | nil => intro k; rfl
        | cons x xs ihx =>
          intro k
          show (registerChains worlds dryRun xs (k + 1)).length + 1 = xs.length + 1
          rw [ihx (k + 1)]
      exact hlen (t :: rest) 0
  · intro i t ht
    rw [registerChains_get worlds dryRun targets 0 i, ht]
    simp
  · intro w t
    refine ⟨rfl, rfl, ?_⟩
    simp [processTarget]
  · intro w t h st hsend hrec hst
    unfold processTarget
    simp only [hsend, hrec, Bool.false_eq_true, if_false]
    rw [if_pos hst]
    have : containsAlreadyRegistered "transaction reverted" = false := by decide
    exact ⟨by simp [catchResult, this], rfl⟩
  · intro w t m hsend
    unfold processTarget
    simp only [hsend, Bool.false_eq_true, if_false]
    exact ⟨rfl, rfl⟩
  · intro w t h m hsend hrec
    unfold processTarget
    simp only [hsend, hrec, Bool.false_eq_true, if_false]
    exact ⟨rfl, rfl⟩

/-- Witness for `erc8004_register_c8` at concrete worlds and targets. -/
theorem erc8004_register_c8_witness :
    (processTarget ⟨some 7, Option.none, Except.error "boom", Except.ok "success"⟩ true
      ⟨⟨1, "Ethereum", ["u"], Option.none⟩, "u", "0xreg"⟩).1.status
      = ChainRegistrationStatus.dryRun
    ∧ (processTarget ⟨some 7, Option.none, Except.ok "0xhash", Except.ok "reverted"⟩ false
        ⟨⟨1, "Ethereum", ["u"], Option.none⟩, "u", "0xreg"⟩).1.status
      = ChainRegistrationStatus.failed
    ∧ (processTarget ⟨some 7, Option.none,
        Except.error "agent already registered", Except.ok "success"⟩ false
        ⟨⟨1, "Ethereum", ["u"], Option.none⟩, "u", "0xreg"⟩).1.status
      = (if containsAlreadyRegistered "agent already registered"
         then ChainRegistrationStatus.alreadyRegistered else ChainRegistrationStatus.failed) :=
  ⟨(erc8004_register_c8 (fun _ => ⟨some 7, Option.none, Except.error "boom",
      Except.ok "success"⟩) true []).2.1
    ⟨some 7, Option.none, Except.error "boom", Except.ok "success"⟩
    ⟨⟨1, "Ethereum", ["u"], Option.none⟩, "u", "0xreg"⟩ |>.1,
   (erc8004_register_c8 (fun _ => ⟨some 7, Option.none, Except.ok "0xhash",
      Except.ok "reverted"⟩) false []).2.2.1
    ⟨some 7, Option.none, Except.ok "0xhash", Except.ok "reverted"⟩
    ⟨⟨1, "Ethereum", ["u"], Option.none⟩, "u", "0xreg"⟩ "0xhash" "reverted" rfl rfl
    (by decide) |>.1,
   (erc8004_register_c8 (fun _ => ⟨some 7, Option.none,
      Except.error "agent already registered", Except.ok "success"⟩) false []).2.2.2.1
    ⟨some 7, Option.none, Except.error "agent already registered", Except.ok "success"⟩
    ⟨⟨1, "Ethereum", ["u"], Option.none⟩, "u", "0xreg"⟩ "agent already registered" rfl |>.1⟩

/-! ### Token URI resolution (`resolveErc8004TokenUri`) -/

/-- One character of JSON string escaping, per `JSON.stringify`. -/
def jsonEscapeChar (c : Char) : List Char :=
  if c = '"' then ['\\', '"']
  else if c = '\\' then ['\\', '\\']
  else if c.toNat = 8 then ['\\', 'b']
  else if c.toNat = 9 then ['\\', 't']
  else if c.toNat = 10 then ['\\', 'n']
  else if c.toNat = 12 then ['\\', 'f']
  else if c.toNat = 13 then ['\\', 'r']
  else if c.toNat < 32 then
    ['\\', 'u', '0', '0',
     (if c.toNat / 16 < 10 then Char.ofNat (48 + c.toNat / 16)
      else Char.ofNat (87 + c.toNat / 16)),
     (if c.toNat % 16 < 10 then Char.ofNat (48 + c.toNat % 16)
      else Char.ofNat (87 + c.toNat % 16))]
  else [c]

/-- `JSON.stringify` of a string value (quotes plus escaped body). -/
def jsonString (s : String) : String :=
  ⟨'"' :: (s.data.foldr (fun c acc => jsonEscapeChar c ++ acc) ['"'])⟩

/-- The base64 alphabet. -/
def base64Alphabet : List Char :=
  "ABCDEFGHIJKLMNOPQRSTUVWXYZabcdefghijklmnopqrstuvwxyz0123456789+/".data

/-- The n-th base64 alphabet character. -/
def b64Char (n : Nat) : Char := base64Alphabet.getD n 'A'

/-- Standard base64 of a byte list, with `=` padding (what
`Buffer.toString("base64")` produces). -/
def base64Encode : List UInt8 → List Char
  | [] => []
  | [a] =>
    [b64Char (a.toNat / 4), b64Char ((a.toNat % 4) * 16), '=', '=']
  | [a, b] =>
    [b64Char (a.toNat / 4), b64Char ((a.toNat % 4) * 16 + b.toNat / 16),
     b64Char ((b.toNat % 16) * 4), '=']
  | a :: b :: c :: rest =>
    b64Char (a.toNat / 4) :: b64Char ((a.toNat % 4) * 16 + b.toNat / 16) ::
      b64Char ((b.toNat % 16) * 4 + c.toNat / 64) :: b64Char (c.toNat % 64) ::
      base64Encode rest

/-- `JSON.stringify` of the generated registration payload: key order is
insertion order; only `accountAddress` is interpolated (as the `endpoint`
of the single XMTP service). -/
def buildGeneratedTokenUriPayload (accountAddress : String) : String :=
  "\x7b\"type\":\"https://eips.ethereum.org/EIPS/eip-8004#registration-v1\"," ++
  "\"name\":\"Agent\",\"active\":true,\"services\":[\x7b\"name\":\"XMTP\"," ++
  "\"endpoint\":" ++ jsonString accountAddress ++ "\x7d]\x7d"

/-- Fixed scheme-and-media-type head of the generated data URI. -/
def dataUriHead : String := "data:application/json;base64,"

/-- From `erc8004.ts`: `buildGeneratedTokenUri` — the payload, UTF-8 encoded,
base64 encoded, behind the `data:application/json;base64,` head.  The
`accountId` parameter is accepted but unused, as in the source. -/
def buildGeneratedTokenUri (accountId accountAddress : String) : String :=
  let _ := accountId
  dataUriHead ++ ⟨base64Encode (buildGeneratedTokenUriPayload accountAddress).toUTF8.toList⟩

/-- Token URI provenance. -/
inductive TokenUriSource
  | arg
  | config
  | generated
deriving Repr, DecidableEq

/-- Result of `resolveErc8004TokenUri`. -/
inductive TokenUriResolution
  | uri (tokenUri : String) (source : TokenUriSource)
  | prompt (message : String)
deriving Repr, DecidableEq

/-- From `erc8004.ts`: `resolveErc8004TokenUri` — trimmed argument first, then
trimmed config value, then the generated data URI; only if even the generated
value trims to empty is the prompt variant returned. -/
def resolveErc8004TokenUri (tokenUriArg : Option String) (acct : Option Erc8004Config)
    (accountId accountAddress : String) : TokenUriResolution :=
  let fromArgs := jsTrim (tokenUriArg.getD "")
  if fromArgs ≠ "" then TokenUriResolution.uri fromArgs TokenUriSource.arg
  else
    let fromConfig := jsTrim ((acct.bind (·.tokenUri)).getD "")
    if fromConfig ≠ "" then TokenUriResolution.uri fromConfig TokenUriSource.config
    else
      let generated := jsTrim (buildGeneratedTokenUri accountId accountAddress)
      if generated ≠ "" then TokenUriResolution.uri generated TokenUriSource.generated
      else TokenUriResolution.prompt
        "Token URI is required. Provide one with /xmtp-8004-register --token-uri <uri>."

/-- C10: for every combination of (possibly blank or absent) argument and
config token URIs and every account id/address, `resolveErc8004TokenUri`
returns a token URI and never the prompt variant, because the generated
fallback always starts with the non-empty head
`data:application/json;base64,`. -/
theorem erc8004_token_uri_c10 (tokenUriArg : Option String) (acct : Option Erc8004Config)
    (accountId accountAddress : String) :
    (∃ t s, resolveErc8004TokenUri tokenUriArg acct accountId accountAddress
      = TokenUriResolution.uri t s)
    ∧ (∀ m, resolveErc8004TokenUri tokenUriArg acct accountId accountAddress
      ≠ TokenUriResolution.prompt m)
    ∧ dataUriHead.data <+: (buildGeneratedTokenUri accountId accountAddress).data
    ∧ jsTrim (buildGeneratedTokenUri accountId accountAddress) ≠ "" := by
  have hpre : dataUriHead.data <+: (buildGeneratedTokenUri accountId accountAddress).data := by
    unfold buildGeneratedTokenUri
    rw [String.data_append]
    exact List.prefix_append _ _
  have hd : 'd' ∈ (buildGeneratedTokenUri accountId accountAddress).data := by
    rcases hpre with ⟨tail, htail⟩
    rw [← htail]
    simp [dataUriHead]
  have hne : jsTrim (buildGeneratedTokenUri accountId accountAddress) ≠ "" :=
    jsTrim_ne_empty_of_mem hd (by decide)
  refine ⟨?_, ?_, hpre, hne⟩
  · unfold resolveErc8004TokenUri
    by_cases h1 : jsTrim (tokenUriArg.getD "") ≠ ""
    · exact ⟨_, _, by rw [if_pos h1]⟩
    · by_cases h2 : jsTrim ((acct.bind (·.tokenUri)).getD "") ≠ ""
      · exact ⟨_, _, by rw [if_neg h1, if_pos h2]⟩
      · exact ⟨_, _, by rw [if_neg h1, if_neg h2, if_pos hne]⟩
  · intro m hcon
    unfold resolveErc8004TokenUri at hcon
    by_cases h1 : jsTrim (tokenUriArg.getD "") ≠ ""
    · rw [if_pos h1] at hcon
      exact absurd hcon (by simp)
    · rw [if_neg h1] at hcon
      by_cases h2 : jsTrim ((acct.bind (·.tokenUri)).getD "") ≠ ""
      · rw [if_pos h2] at hcon
        exact absurd hcon (by simp)
      · rw [if_neg h2, if_pos hne] at hcon
        exact absurd hcon (by simp)

/-- Witness for `erc8004_token_uri_c10` at concrete arguments: with no
argument and no config, the generated data URI is returned, never a prompt. -/
theorem erc8004_token_uri_c10_witness :
    (∃ t s, resolveErc8004TokenUri Option.none Option.none "default"
      "0x1111111111111111111111111111111111111111" = TokenUriResolution.uri t s)
    ∧ (∀ m, resolveErc8004TokenUri Option.none Option.none "default"
      "0x1111111111111111111111111111111111111111" ≠ TokenUriResolution.prompt m)
    ∧ dataUriHead.data <+: (buildGeneratedTokenUri "default"
        "0x1111111111111111111111111111111111111111").data
    ∧ jsTrim (buildGeneratedTokenUri "default"
        "0x1111111111111111111111111111111111111111") ≠ "" :=
  erc8004_token_uri_c10 Option.none Option.none "default"
    "0x1111111111111111111111111111111111111111"
